import Mathlib

/-!
# Verification of the EHF extraction pipeline (`extraction_complete.py`)

This file gives a shallow embedding, in Lean 4, of the core text-processing
pipeline of the EHF analyzer: formality splitting, act-type classification,
mortgage/cancellation resolution, mutation extraction, last-page reference
property extraction, and ownership reconstruction.  Pure Python functions are
translated to executable Lean functions; Python regular expressions are
interpreted by a small backtracking matcher (`runRx`) that reproduces the
leftmost-match / greedy / lazy / alternation-priority semantics of `re`.
All recursion is structural or fuel-bounded so every definition evaluates
inside the kernel.
-/

namespace EHF

/-! ## Character and string primitives

These model the Python string primitives used by the source: `\s` character
class, case folding for `re.IGNORECASE`, `str.upper()`, `str.strip()`,
substring containment (`in`), `str.split`, `str.zfill`, `str.isdigit`,
and code-point lexicographic comparison.  Case mappings cover ASCII plus the
accented letters that occur in the source's patterns and literals. -/

def isSpace (c : Char) : Bool :=
  c = ' ' || c = '\t' || c = '\n' || c = '\r' || c = '\x0b' || c = '\x0c'

def isDigitCh (c : Char) : Bool := '0' ≤ c && c ≤ '9'

/-- Case folding used for `re.IGNORECASE`: ASCII plus the accented letters
appearing in the source's regex literals. -/
def lowerFr (c : Char) : Char :=
  if c = 'É' then 'é' else if c = 'È' then 'è' else if c = 'Ê' then 'ê'
  else if c = 'À' then 'à' else if c = 'Â' then 'â' else if c = 'Ô' then 'ô'
  else if c = 'Î' then 'î' else if c = 'Û' then 'û' else if c = 'Ç' then 'ç'
  else if 'A' ≤ c && c ≤ 'Z' then Char.ofNat (c.toNat + 32) else c

/-- Embedding of Python `str.upper()` on the alphabet used by this program
(ASCII letters plus the accented letters occurring in the document texts). -/
def upperFr (c : Char) : Char :=
  if c = 'é' then 'É' else if c = 'è' then 'È' else if c = 'ê' then 'Ê'
  else if c = 'à' then 'À' else if c = 'â' then 'Â' else if c = 'ô' then 'Ô'
  else if c = 'î' then 'Î' else if c = 'û' then 'Û' else if c = 'ç' then 'Ç'
  else if 'a' ≤ c && c ≤ 'z' then Char.ofNat (c.toNat - 32) else c

def pyUpper (s : String) : String := ⟨s.data.map upperFr⟩

def stripLead (cs : List Char) : List Char := cs.dropWhile isSpace

def stripTrail (cs : List Char) : List Char := (cs.reverse.dropWhile isSpace).reverse

def pyStripL (cs : List Char) : List Char := stripTrail (stripLead cs)

/-- Embedding of Python `str.strip()`. -/
def pyStrip (s : String) : String := ⟨pyStripL s.data⟩

/-- `leadsWith needle hay`: `needle` is an initial segment of `hay`. -/
def leadsWith : List Char → List Char → Bool
  | [], _ => true
  | _ :: _, [] => false
  | a :: as, b :: bs => a = b && leadsWith as bs

def containsSub (needle : List Char) : List Char → Bool
  | [] => needle.isEmpty
  | c :: t => leadsWith needle (c :: t) || containsSub needle t

/-- Embedding of Python `needle in hay` (substring containment). -/
def pyInStr (needle hay : String) : Bool := containsSub needle.data hay.data

/-- `str.split(sep)` for a non-empty separator, fuel-bounded on the input
length so the kernel can evaluate it. -/
def splitOnFuel (sep : List Char) : Nat → List Char → List (List Char)
  | _, [] => [[]]
  | 0, cs => [cs]
  | f + 1, c :: rest =>
    if sep ≠ [] && leadsWith sep (c :: rest) then
      [] :: splitOnFuel sep f (List.drop (sep.length - 1) rest)
    else
      match splitOnFuel sep f rest with
      | [] => [[c]]
      | seg :: segs => (c :: seg) :: segs

def pySplit (sep s : String) : List String :=
  (splitOnFuel sep.data s.data.length s.data).map fun l => ⟨l⟩

/-- `str.split(sep, 1)`: split on the first occurrence only. -/
def pySplitFirst (sep s : String) : List String :=
  match pySplit sep s with
  | [] => [s]
  | seg :: segs =>
    if segs = [] then [seg]
    else [seg, String.intercalate sep segs]

def padZeros (w : Nat) (cs : List Char) : List Char :=
  List.replicate (w - cs.length) '0' ++ cs

/-- Embedding of Python `str.zfill(w)`. -/
def zfill (w : Nat) (s : String) : String :=
  match s.data with
  | c :: rest =>
    if c = '+' || c = '-' then ⟨c :: padZeros (w - 1) rest⟩ else ⟨padZeros w (c :: rest)⟩
  | [] => ⟨padZeros w []⟩

/-- Embedding of Python `str.isdigit()` (ASCII digits). -/
def pyIsDigit (s : String) : Bool := s.data ≠ [] && s.data.all isDigitCh

/-- Code-point lexicographic `≤` on character lists: the comparison Python
uses for `str` ordering. -/
def strLeL : List Char → List Char → Bool
  | [], _ => true
  | _ :: _, [] => false
  | a :: as, b :: bs => if a = b then strLeL as bs else decide (a < b)

def pyStrLe (a b : String) : Bool := strLeL a.data b.data

def pyStrGt (a b : String) : Bool := !pyStrLe a b

/-- Embedding of Python `int(s)` returning `none` on `ValueError`. -/
def pyIntOpt (s : String) : Option Int :=
  let cs := pyStripL s.data
  let core : List Char → Option Nat := fun ds =>
    if ds ≠ [] && ds.all isDigitCh then
      some (ds.foldl (fun acc d => acc * 10 + (d.toNat - '0'.toNat)) 0)
    else none
  match cs with
  | '-' :: rest => (core rest).map fun n => -(n : Int)
  | '+' :: rest => (core rest).map fun n => (n : Int)
  | _ => (core cs).map fun n => (n : Int)

/-- Keep the first occurrence of each element (Python `dict.fromkeys` order). -/
def dedupFirstAux (seen : List String) : List String → List String
  | [] => []
  | x :: xs => if x ∈ seen then dedupFirstAux seen xs else x :: dedupFirstAux (x :: seen) xs

def dedupFirst (l : List String) : List String := dedupFirstAux [] l

/-! ## A stable insertion sort

Python's `sorted` is a stable sort; `sorted(key=k, reverse=True)` is the
stable sort by descending key.  `sortD le` places each element before the
first later element `y` with `le x y`, which is the stable sort with respect
to the boolean preorder `le`. -/

def insertD {α : Type} (le : α → α → Bool) (x : α) : List α → List α
  | [] => [x]
  | y :: ys => if le x y then x :: y :: ys else y :: insertD le x ys

def sortD {α : Type} (le : α → α → Bool) : List α → List α
  | [] => []
  | x :: xs => insertD le x (sortD le xs)

/-! ## A small backtracking regex matcher

Interprets the regular expressions of the source file with Python `re`
semantics: leftmost match, greedy repetition tries longer first, lazy
repetition tries shorter first, alternation tries the left branch first,
`(?=...)` is a zero-width lookahead, `$` without `re.MULTILINE` matches at
the end of the input or just before a final newline, and `^`/`$` with
`re.MULTILINE` match at line boundaries.  The matcher enumerates successes
in priority order; a search takes the first one.  `fuel` bounds the
recursion depth; every repetition body used here consumes at least one
character, so `rxFuel` below is always sufficient. -/

inductive Rx where
  | eps
  | pred (p : Char → Bool)
  | cat (a b : Rx)
  | alt (a b : Rx)
  | rep (lo : Nat) (hi : Option Nat) (greedy : Bool) (a : Rx)
  | grp (i : Nat) (a : Rx)
  | look (a : Rx)
  | bolM
  | eolM
  | eosD

abbrev Grps := List (Nat × List Char)

def setGrp (i : Nat) (v : List Char) : Grps → Grps
  | [] => [(i, v)]
  | (j, w) :: t => if j = i then (i, v) :: t else (j, w) :: setGrp i v t

def getGrp (i : Nat) : Grps → Option (List Char)
  | [] => none
  | (j, w) :: t => if j = i then some w else getGrp i t

def decOpt : Option Nat → Option Nat
  | none => none
  | some n => some (n - 1)

/-- One matcher state: the character preceding the current position (for
`^` in multiline mode), the remaining input, and the captured groups. -/
abbrev MSt := Option Char × List Char × Grps

def runRx : Nat → Rx → Option Char → List Char → Grps → List MSt
  | 0, _, _, _, _ => []
  | f + 1, r, prev, cs, g =>
    match r with
    | .eps => [(prev, cs, g)]
    | .pred p =>
      match cs with
      | [] => []
      | c :: rest => if p c then [(some c, rest, g)] else []
    | .cat a b =>
      (runRx f a prev cs g).flatMap fun (p', cs', g') => runRx f b p' cs' g'
    | .alt a b => runRx f a prev cs g ++ runRx f b prev cs g
    | .grp i a =>
      (runRx f a prev cs g).map fun (p', cs', g') =>
        (p', cs', setGrp i (cs.take (cs.length - cs'.length)) g')
    | .look a =>
      match runRx f a prev cs g with
      | [] => []
      | (_, _, g') :: _ => [(prev, cs, g')]
    | .bolM => if prev = none || prev = some '\n' then [(prev, cs, g)] else []
    | .eolM => if cs = [] || cs.head? = some '\n' then [(prev, cs, g)] else []
    | .eosD => if cs = [] || cs = ['\n'] then [(prev, cs, g)] else []
    | .rep lo hi greedy a =>
      let canMore := hi ≠ some 0
      let more :=
        if canMore then
          (runRx f a prev cs g).flatMap fun (p', cs', g') =>
            if cs'.length < cs.length then
              runRx f (.rep (lo - 1) (decOpt hi) greedy a) p' cs' g'
            else []
        else []
      let stop := if lo = 0 then [(prev, cs, g)] else []
      if greedy then more ++ stop else stop ++ more

def rxSize : Rx → Nat
  | .eps | .pred _ | .bolM | .eolM | .eosD => 1
  | .cat a b | .alt a b => rxSize a + rxSize b + 1
  | .rep _ _ _ a | .grp _ a | .look a => rxSize a + 1

/-- A recursion-depth bound sufficient for patterns whose repetition bodies
consume at least one character. -/
def rxFuel (r : Rx) (cs : List Char) : Nat :=
  (rxSize r + 2) * (cs.length + 2) * 2

/-- Result of a successful search: the start index, the matched characters,
the remaining input after the match, the character preceding that remainder,
and the captured groups. -/
structure RxMatch where
  start : Nat
  matched : List Char
  rest : List Char
  prevEnd : Option Char
  grps : Grps

def searchFrom (r : Rx) : Option Char → Nat → List Char → Option RxMatch :=
  fun prev idx cs =>
    match runRx (rxFuel r cs) r prev cs [] with
    | (p', rest, g) :: _ =>
      some ⟨idx, cs.take (cs.length - rest.length), rest, p', g⟩
    | [] =>
      match cs with
      | [] => none
      | c :: t => searchFrom r (some c) (idx + 1) t

/-- Embedding of `re.search`. -/
def rxSearch (r : Rx) (s : String) : Option RxMatch := searchFrom r none 0 s.data

/-- Group `i` of a match as a string; `none` (an unmatched group) and a
missing group both render as the empty string, matching the way the source
always guards group access. -/
def grpStr (m : RxMatch) (i : Nat) : String :=
  match getGrp i m.grps with
  | some v => ⟨v⟩
  | none => ""

/-- Embedding of `re.findall` / `re.finditer`: repeated leftmost
non-overlapping matches.  All patterns used with it match at least one
character, so the empty-match advance rule is irrelevant. -/
def findAllFuel (r : Rx) : Nat → Option Char → List Char → List RxMatch
  | 0, _, _ => []
  | f + 1, prev, cs =>
    match searchFrom r prev 0 cs with
    | none => []
    | some m =>
      if m.matched = [] then [m]
      else m :: findAllFuel r f m.prevEnd m.rest

def rxFindAll (r : Rx) (s : String) : List RxMatch :=
  findAllFuel r (s.data.length + 1) none s.data

/-- Embedding of `re.split` for a pattern without groups. -/
def splitRxFuel (r : Rx) : Nat → Option Char → List Char → List (List Char)
  | 0, _, cs => [cs]
  | f + 1, prev, cs =>
    match searchFrom r prev 0 cs with
    | none => [cs]
    | some m =>
      if m.matched = [] then [cs]
      else cs.take m.start :: splitRxFuel r f m.prevEnd m.rest

def rxSplit (r : Rx) (s : String) : List String :=
  (splitRxFuel r (s.data.length + 1) none s.data).map fun l => ⟨l⟩

/-- Embedding of `re.sub` (replace every match by `repl`). -/
def subRxFuel (r : Rx) (repl : List Char) : Nat → Option Char → List Char → List Char
  | 0, _, cs => cs
  | f + 1, prev, cs =>
    match searchFrom r prev 0 cs with
    | none => cs
    | some m =>
      if m.matched = [] then cs
      else cs.take m.start ++ repl ++ subRxFuel r repl f m.prevEnd m.rest

def rxSub (r : Rx) (repl s : String) : String :=
  ⟨subRxFuel r repl.data (s.data.length + 1) none s.data⟩

/-! ### Pattern construction helpers -/

/-- Character equality as used by a pattern literal: case-folded when the
pattern carries `re.IGNORECASE`. -/
def chEq (ci : Bool) (c : Char) : Char → Bool :=
  fun d => if ci then lowerFr d = lowerFr c else d = c

def rxSeq (l : List Rx) : Rx := l.foldr .cat .eps

/-- A literal string, one `pred` per character. -/
def lit (ci : Bool) (s : String) : Rx := rxSeq (s.data.map fun c => .pred (chEq ci c))

def star (greedy : Bool) (a : Rx) : Rx := .rep 0 none greedy a

def plus (greedy : Bool) (a : Rx) : Rx := .rep 1 none greedy a

def opt (a : Rx) : Rx := .rep 0 (some 1) true a

def rpt (n : Nat) (a : Rx) : Rx := .rep n (some n) true a

def rxDigit : Rx := .pred isDigitCh

def rxSpace : Rx := .pred isSpace

/-- `.` under `re.DOTALL`. -/
def rxAnyD : Rx := .pred fun _ => true

/-- `[A-Z]`, folding to lowercase as well when the pattern is
case-insensitive. -/
def clsAZ (ci : Bool) : Char → Bool :=
  fun c => ('A' ≤ c && c ≤ 'Z') || (ci && 'a' ≤ c && c ≤ 'z')

/-! ## FormalityParser (`extract_formalites_from_pdf`, lines 24-94)

The document text is split on the anchor `Date de d[eé]p[oô]t\s*:`
(case-insensitive); the pre-anchor preamble is dropped and each later
section that is non-empty after stripping becomes one `Formalite` whose
`numero_ordre` is the section's 1-based index. -/

/-- `r"Date de d[eé]p[oô]t\s*:"` with `re.IGNORECASE`. -/
def depotPattern : Rx :=
  rxSeq [lit true "Date de d",
         .pred (fun c => lowerFr c = 'e' || lowerFr c = 'é'),
         lit true "p",
         .pred (fun c => lowerFr c = 'o' || lowerFr c = 'ô'),
         lit true "t", star true rxSpace, lit false ":"]

/-- `r"(\d{2}/\d{2}/\d{4})"`. -/
def dateDepotPattern : Rx :=
  .grp 1 (rxSeq [rpt 2 rxDigit, lit false "/", rpt 2 rxDigit, lit false "/", rpt 4 rxDigit])

/-- `r"Date de l'acte\s*:\s*(\d{2}/\d{2}/\d{4})"` with `re.IGNORECASE`. -/
def dateActePattern : Rx :=
  rxSeq [lit true "Date de l'acte", star true rxSpace, lit false ":", star true rxSpace,
         .grp 1 (rxSeq [rpt 2 rxDigit, lit false "/", rpt 2 rxDigit, lit false "/", rpt 4 rxDigit])]

/-- `r"Nature de l'acte\s*:\s*(.+?)(?:\n|Rédacteur)"` with
`re.IGNORECASE | re.DOTALL`. -/
def entrePattern : Rx :=
  rxSeq [lit true "Nature de l'acte", star true rxSpace, lit false ":", star true rxSpace,
         .grp 1 (plus false rxAnyD),
         .alt (lit false "\n") (lit true "Rédacteur")]

/-- `r"Réference d'enliassement\s*:\s*([^\n]+)"` with `re.IGNORECASE`. -/
def refEnliassementPattern : Rx :=
  rxSeq [lit true "Réference d'enliassement", star true rxSpace, lit false ":", star true rxSpace,
         .grp 1 (plus true (.pred fun c => c ≠ '\n'))]

/-- `r'\s+Date de l\'acte\s*:\s*\d{2}/\d{2}/\d{4}'` (case-sensitive, used by
`re.sub` to clean the bundling reference). -/
def refCleanPattern : Rx :=
  rxSeq [plus true rxSpace, lit false "Date de l'acte", star true rxSpace, lit false ":",
         star true rxSpace, rpt 2 rxDigit, lit false "/", rpt 2 rxDigit, lit false "/",
         rpt 4 rxDigit]

structure Formalite where
  numero_ordre : Nat
  date_depot : String
  date_acte : String
  contenu : String
  nature_acte_redacteur : String
  reference_enliassement : String
deriving DecidableEq, Repr

/-- Builds one `Formalite` from a stripped section (source lines 61-91). -/
def mkFormalite (i : Nat) (contenu : String) : Formalite :=
  let chaine_entre :=
    match rxSearch entrePattern contenu with
    | some m => pyStrip (grpStr m 1)
    | none => "Non trouvé"
  let date_depot :=
    match rxSearch dateDepotPattern contenu with
    | some m => grpStr m 1
    | none => "Non trouvé"
  let date_acte :=
    match rxSearch dateActePattern contenu with
    | some m => grpStr m 1
    | none => "Non trouvé"
  let ref_enliassement :=
    match rxSearch refEnliassementPattern contenu with
    | some m => rxSub refCleanPattern "" (pyStrip (grpStr m 1))
    | none => ""
  { numero_ordre := i
    date_depot := date_depot
    date_acte := date_acte
    contenu := "Date de depot: " ++ contenu
    nature_acte_redacteur := chaine_entre
    reference_enliassement := ref_enliassement }

/-- The per-section loop of source lines 53-92: section `0` (the preamble) is
skipped by the caller, each later section keeps its enumeration index as
`numero_ordre` and is dropped when it strips to the empty string. -/
def buildFormalites : Nat → List String → List Formalite
  | _, [] => []
  | i, s :: rest =>
    let contenu := pyStrip s
    if contenu ≠ "" then mkFormalite i contenu :: buildFormalites (i + 1) rest
    else buildFormalites (i + 1) rest

/-- The text-level core of `extract_formalites_from_pdf`: `full_text` is the
concatenated page text supplied by the external PDF reader. -/
def extract_formalites (full_text : String) : List Formalite :=
  match rxSplit depotPattern full_text with
  | [] => []
  | _ :: sections => buildFormalites 1 sections

/-- Number of anchor-phrase occurrences in the document text. -/
def countAnchors (full_text : String) : Nat :=
  (rxSplit depotPattern full_text).length - 1

/-! ## ActeClassifier (`classifier_type_acte`, lines 820-844)

The phrase patterns `\s+de\s+la\s+formalité` (four accent/case spellings,
each searched with `re.IGNORECASE`) are matched directly: each `\s+` is
followed by a non-space literal, so the greedy run is forced and the match
test at one position is deterministic. -/

/-- Match one phrase variant at the current position: whitespace run, `de`,
whitespace run, `la`, whitespace run, `formalit`, final character accepted
by `fin`. -/
def matchPhraseAt (fin : Char → Bool) (cs : List Char) : Bool :=
  match cs with
  | [] => false
  | c :: rest =>
    isSpace c &&
      (let cs1 := rest.dropWhile isSpace
       leadsWith ['d', 'e'] (cs1.map lowerFr) &&
         (match cs1.drop 2 with
          | [] => false
          | d :: rest2 =>
            isSpace d &&
              (let cs2 := rest2.dropWhile isSpace
               leadsWith ['l', 'a'] (cs2.map lowerFr) &&
                 (match cs2.drop 2 with
                  | [] => false
                  | e :: rest3 =>
                    isSpace e &&
                      (let cs3 := rest3.dropWhile isSpace
                       leadsWith ['f', 'o', 'r', 'm', 'a', 'l', 'i', 't'] (cs3.map lowerFr) &&
                         (match cs3.drop 8 with
                          | [] => false
                          | fc :: _ => fin fc))))))

/-- Index of the leftmost match of a phrase variant (`re.search(...).start()`). -/
def phraseSearchIdx (fin : Char → Bool) : Nat → List Char → Option Nat
  | _, [] => none
  | i, c :: rest =>
    if matchPhraseAt fin (c :: rest) then some i else phraseSearchIdx fin (i + 1) rest

/-- Final-character class of each of the four source patterns, in source
order: `formalité`, `formalite`, `FORMALITÉ`, `FORMALITE`, each folded by
`re.IGNORECASE`. -/
def patternsFormalite : List (Char → Bool) :=
  [fun c => lowerFr c = 'é', fun c => lowerFr c = 'e',
   fun c => lowerFr c = 'é', fun c => lowerFr c = 'e']

/-- The pattern loop of source lines 836-841. -/
def classifierLoop (orig : List Char) : List (Char → Bool) → String
  | [] => ⟨orig⟩
  | fin :: rest =>
    match phraseSearchIdx fin 0 orig with
    | some i =>
      let type_acte := pyStripL (orig.take i)
      if type_acte ≠ [] then ⟨type_acte⟩ else ⟨orig⟩
    | none => classifierLoop orig rest

/-- Embedding of `classifier_type_acte`. -/
def classifier_type_acte (nature_acte : String) : String :=
  classifierLoop (pyStripL nature_acte.data) patternsFormalite

/-! ## Act-type count aggregation (source lines 96-113) -/

/-- Increment the count of `k`, keeping first-seen insertion order (Python
`dict` semantics). -/
def bump (k : String) : List (String × Nat) → List (String × Nat)
  | [] => [(k, 1)]
  | (j, n) :: t => if j = k then (j, n + 1) :: t else (j, n) :: bump k t

/-- The guard of the counting loop (line 102): a stripped act nature that is
neither empty nor the not-found sentinel. -/
def natureValide (f : Formalite) : Bool :=
  pyStrip f.nature_acte_redacteur ≠ "" &&
    pyUpper (pyStrip f.nature_acte_redacteur) ≠ "NON TROUVÉ"

/-- The counting loop: classify each formality's `nature_acte_redacteur`,
skipping empty and `"Non trouvé"` values. -/
def comptage_types (formalites : List Formalite) : List (String × Nat) :=
  formalites.foldl
    (fun acc f =>
      if natureValide f then
        bump (classifier_type_acte (pyStrip f.nature_acte_redacteur)) acc
      else acc)
    []

/-- `dict(sorted(comptage_types.items(), key=lambda x: x[1], reverse=True))`:
the stable sort by descending count. -/
def comptage_trie (formalites : List Formalite) : List (String × Nat) :=
  sortD (fun x y => decide (y.2 ≤ x.2)) (comptage_types formalites)

/-! ## MortgageAnalyzer: per-mortgage detail extraction
(`extraire_lots_volumes_hypotheque`, lines 669-818) -/

/-- `r"Immeubles\s*.*?(?=\n\s*Montant|$)"` with `re.IGNORECASE | re.DOTALL`. -/
def immeublesSectionPattern : Rx :=
  rxSeq [lit true "Immeubles", star true rxSpace, star false rxAnyD,
         .look (.alt (rxSeq [lit false "\n", star true rxSpace, lit true "Montant"]) .eosD)]

/-- `r"([A-Z][A-Z\s\d]+?)\s+([A-Z]{1,3}\s*\d+)\s*\n((?:\s*\d+\s*\n?)+)"`
(case-sensitive). -/
def communeDesignationPattern : Rx :=
  rxSeq [.grp 1 (rxSeq [.pred (clsAZ false),
                        plus false (.pred fun c => clsAZ false c || isSpace c || isDigitCh c)]),
         plus true rxSpace,
         .grp 2 (rxSeq [.rep 1 (some 3) true (.pred (clsAZ false)), star true rxSpace,
                        plus true rxDigit]),
         star true rxSpace, lit false "\n",
         .grp 3 (plus true (rxSeq [star true rxSpace, plus true rxDigit, star true rxSpace,
                                   opt (lit false "\n")]))]

/-- The two `commune_patterns` of lines 707-710 (`re.IGNORECASE`). -/
def communePatterns : List Rx :=
  [rxSeq [.grp 1 (rxSeq [.pred (clsAZ true),
                         plus false (.pred fun c => clsAZ true c || isSpace c || isDigitCh c)]),
          plus true rxSpace, .rep 1 (some 3) true (.pred (clsAZ true)), plus true rxSpace,
          plus true rxDigit],
   rxSeq [lit true "Commune", star true (.pred fun c => c = ':' || isSpace c),
          .grp 1 (rxSeq [.pred (clsAZ true),
                         plus true (.pred fun c => clsAZ true c || isSpace c || isDigitCh c)])]]

/-- The two `designation_patterns` of lines 719-722 (`re.IGNORECASE`). -/
def designationPatterns : List Rx :=
  [rxSeq [.grp 1 (rxSeq [.rep 1 (some 3) true (.pred (clsAZ true)), star true rxSpace,
                         plus true rxDigit]),
          .alt (rxSeq [star true rxSpace, lit false "\n"]) (rxSeq [star true rxSpace, .eosD])],
   rxSeq [lit true "cadastrale", star true (.pred fun c => c = ':' || isSpace c),
          .grp 1 (rxSeq [.rep 1 (some 3) true (.pred (clsAZ true)), star true rxSpace,
                         plus true rxDigit])]]

/-- `r'\d+'`. -/
def digitRunPattern : Rx := plus true rxDigit

/-- `r'^\s*(\d+)\s*$'` with `re.MULTILINE`. -/
def lotLinePattern : Rx :=
  rxSeq [.bolM, star true rxSpace, .grp 1 (plus true rxDigit), star true rxSpace, .eolM]

/-- `r"Volume[:\s]*(\d+|[A-Z]\d+)"` with `re.IGNORECASE`. -/
def volumePattern : Rx :=
  rxSeq [lit true "Volume", star true (.pred fun c => c = ':' || isSpace c),
         .grp 1 (.alt (plus true rxDigit)
                      (rxSeq [.pred (clsAZ true), plus true rxDigit]))]

/-- `[\d\s,\.]+\s*EUR` money value, shared by the financial patterns. -/
def eurValue : Rx :=
  rxSeq [plus true (.pred fun c => isDigitCh c || isSpace c || c = ',' || c = '.'),
         star true rxSpace, lit true "EUR"]

/-- `r"Montant principal\s*:\s*([\d\s,\.]+\s*EUR)"` with `re.IGNORECASE`. -/
def montantPrincipalPattern : Rx :=
  rxSeq [lit true "Montant principal", star true rxSpace, lit false ":", star true rxSpace,
         .grp 1 eurValue]

/-- `r"Accessoires\s*:\s*([\d\s,\.]+\s*EUR)"` with `re.IGNORECASE`. -/
def accessoiresPattern : Rx :=
  rxSeq [lit true "Accessoires", star true rxSpace, lit false ":", star true rxSpace,
         .grp 1 eurValue]

/-- `r"Taux d'intérêt\s*:\s*([\d,\.]+\s*%)"` with `re.IGNORECASE`. -/
def tauxPattern : Rx :=
  rxSeq [lit true "Taux d'intérêt", star true rxSpace, lit false ":", star true rxSpace,
         .grp 1 (rxSeq [plus true (.pred fun c => isDigitCh c || c = ',' || c = '.'),
                        star true rxSpace, lit false "%"])]

/-- `r"Date d'extrême exigibilité\s*:\s*(\d{2}/\d{2}/\d{4})"` with
`re.IGNORECASE`. -/
def exigibilitePattern : Rx :=
  rxSeq [lit true "Date d'extrême exigibilité", star true rxSpace, lit false ":",
         star true rxSpace,
         .grp 1 (rxSeq [rpt 2 rxDigit, lit false "/", rpt 2 rxDigit, lit false "/",
                        rpt 4 rxDigit])]

/-- `r"Date d'extrême effet\s*:\s*(\d{2}/\d{2}/\d{4})"` with `re.IGNORECASE`. -/
def effetPattern : Rx :=
  rxSeq [lit true "Date d'extrême effet", star true rxSpace, lit false ":",
         star true rxSpace,
         .grp 1 (rxSeq [rpt 2 rxDigit, lit false "/", rpt 2 rxDigit, lit false "/",
                        rpt 4 rxDigit])]

/-- `r"Complément\s*:\s*(.*?)(?=\n\s*Disposition|\n\s*\d+\s*/\s*\d+\s*Demande|$)"`
with `re.IGNORECASE | re.DOTALL`. -/
def complementPattern : Rx :=
  rxSeq [lit true "Complément", star true rxSpace, lit false ":", star true rxSpace,
         .grp 1 (star false rxAnyD),
         .look (.alt (rxSeq [lit false "\n", star true rxSpace, lit true "Disposition"])
                     (.alt (rxSeq [lit false "\n", star true rxSpace, plus true rxDigit,
                                   star true rxSpace, lit false "/", star true rxSpace,
                                   plus true rxDigit, star true rxSpace, lit true "Demande"])
                           .eosD))]

/-- `r'\n+'`. -/
def nlRunPattern : Rx := plus true (.pred fun c => c = '\n')

/-- First pattern of the list whose search succeeds; yields group 1, stripped. -/
def firstGroupMatch : List Rx → String → String
  | [], _ => ""
  | p :: rest, s =>
    match rxSearch p s with
    | some m => pyStrip (grpStr m 1)
    | none => firstGroupMatch rest s

structure LotsVolumes where
  lots : List String
  volume : String
  commune : String
  designation_cadastrale : String
  montant_principal : String
  accessoires : String
  taux_interet : String
  date_extreme_exigibilite : String
  date_extreme_effet : String
  complement : String
deriving DecidableEq, Repr

/-- Embedding of `extraire_lots_volumes_hypotheque`.  The source's early
return for empty content omits the financial keys; that path is unreachable
from the pipeline (every formality's content starts with
`"Date de depot: "`), so all fields default to empty here. -/
def extraire_lots_volumes_hypotheque (contenu : String) : LotsVolumes :=
  if contenu = "" then
    ⟨[], "", "", "", "", "", "", "", "", ""⟩
  else
    let (lots, volume, commune, designation_cadastrale) :=
      match rxSearch immeublesSectionPattern contenu with
      | none => ([], "", "", "")
      | some im =>
        let sect : String := ⟨im.matched⟩
        let (commune, designation, lots) :=
          match rxSearch communeDesignationPattern sect with
          | some m =>
            (pyStrip (grpStr m 1), pyStrip (grpStr m 2),
             (rxFindAll digitRunPattern (grpStr m 3)).map fun (mm : RxMatch) => (⟨mm.matched⟩ : String))
          | none =>
            let commune := firstGroupMatch communePatterns sect
            let designation := firstGroupMatch designationPatterns sect
            let lots :=
              if designation ≠ "" then
                match pySplitFirst designation sect with
                | [_, remaining] => (rxFindAll lotLinePattern remaining).map fun (mm : RxMatch) => grpStr mm 1
                | _ => []
              else []
            (commune, designation, lots)
        let volume :=
          match rxSearch volumePattern sect with
          | some m => pyStrip (grpStr m 1)
          | none => ""
        (lots, volume, commune, designation)
    let lots := dedupFirst ((lots.map pyStrip).filter pyIsDigit)
    let searchStrip := fun (p : Rx) =>
      match rxSearch p contenu with
      | some m => pyStrip (grpStr m 1)
      | none => ""
    let complement :=
      match rxSearch complementPattern contenu with
      | some m => pyStrip (rxSub nlRunPattern " " (pyStrip (grpStr m 1)))
      | none => ""
    { lots := lots
      volume := volume
      commune := commune
      designation_cadastrale := designation_cadastrale
      montant_principal := searchStrip montantPrincipalPattern
      accessoires := searchStrip accessoiresPattern
      taux_interet := searchStrip tauxPattern
      date_extreme_exigibilite := searchStrip exigibilitePattern
      date_extreme_effet := searchStrip effetPattern
      complement := complement }

/-! ## MortgageAnalyzer: classification and activity resolution
(`analyser_hypotheques_actives`, lines 135-201) -/

/-- A formality is a cancellation when its act text (upper-cased) contains
both the radiation and the totality markers (line 149). -/
def estRadiationF (f : Formalite) : Bool :=
  pyInStr "RADIATION" (pyUpper f.nature_acte_redacteur) &&
    pyInStr "TOTALE" (pyUpper f.nature_acte_redacteur)

/-- The explicit mortgage marker (line 155). -/
def estHypothequeExplicite (f : Formalite) : Bool :=
  pyInStr "HYPOTHEQUE" (pyUpper f.nature_acte_redacteur)

/-- The implicit mortgage criterion on the raw content (lines 156-157). -/
def estHypothequeImplicite (f : Formalite) : Bool :=
  pyInStr "CRÉANCIERS" (pyUpper f.contenu) &&
    (pyInStr "DÉBITEUR" (pyUpper f.contenu) || pyInStr "PROPRIÉTAIRES IMMEUBLE" (pyUpper f.contenu))

/-- Membership in the `hypotheques` list built by the first loop. -/
def estHypothequeF (f : Formalite) : Bool :=
  !estRadiationF f && (estHypothequeExplicite f || estHypothequeImplicite f)

/-- A mortgage is radiated when some cancellation's act text contains its
`date_depot` literally and carries both markers (lines 174-183). -/
def estRadiee (radiations : List Formalite) (h : Formalite) : Bool :=
  radiations.any fun r =>
    pyInStr h.date_depot r.nature_acte_redacteur &&
      pyInStr "RADIATION" (pyUpper r.nature_acte_redacteur) &&
      pyInStr "TOTALE" (pyUpper r.nature_acte_redacteur)

structure HypothequeActive where
  numero_ordre : Nat
  date_depot : String
  date_acte : String
  nature_acte : String
  reference_enliassement : String
  contenu : String
  lots_volumes : LotsVolumes
  statut : String
deriving DecidableEq, Repr

/-- The record built for a surviving mortgage (lines 190-199). -/
def mkHypothequeActive (h : Formalite) : HypothequeActive :=
  { numero_ordre := h.numero_ordre
    date_depot := h.date_depot
    date_acte := h.date_acte
    nature_acte := h.nature_acte_redacteur
    reference_enliassement := h.reference_enliassement
    contenu := h.contenu
    lots_volumes := extraire_lots_volumes_hypotheque h.contenu
    statut := "ACTIVE" }

/-- Embedding of `analyser_hypotheques_actives`.  The source's single
classification loop with an if/else is the pair of order-preserving filters
below. -/
def analyser_hypotheques_actives (formalites : List Formalite) : List HypothequeActive :=
  let radiations := formalites.filter estRadiationF
  let hypotheques := formalites.filter estHypothequeF
  (hypotheques.filter fun h => !estRadiee radiations h).map mkHypothequeActive

/-! ## MutationAnalyzer (`extraire_mutations`, lines 494-667, and
`analyser_mutations`, lines 203-231) -/

structure Personne where
  numero : String
  designation : String
  date_naissance : String
deriving DecidableEq, Repr

structure LigneImmeuble where
  beneficiaire_numero : String
  droits : String
  commune : String
  designation_cadastrale : String
  volume : String
  lots : List String
deriving DecidableEq, Repr

structure ImmeublesData where
  beneficiaire_numero : String
  droits : String
  commune : String
  designation_cadastrale : String
  volume : String
  lots : List String
  lignes_detaillees : List LigneImmeuble
deriving DecidableEq, Repr

/-- `mutations["immeubles"]` is either the empty dict (`none` here) or a
fully populated one. -/
structure MutationsData where
  disposant_donateur : List Personne
  beneficiaire_donataire : List Personne
  immeubles : Option ImmeublesData
  montant : String
deriving DecidableEq, Repr

/-- Trailer shared by the three disposant and beneficiaire section patterns:
`Numéro\s+Désignation des personnes\s+Date de naissance.*?\n(.*?)(?=...)`
with the given lookahead alternatives. -/
def partyHeaderTail (ahead : Rx) : Rx :=
  rxSeq [lit true "Numéro", plus true rxSpace, lit true "Désignation des personnes",
         plus true rxSpace, lit true "Date de naissance", star false rxAnyD, lit false "\n",
         .grp 1 (star false rxAnyD), .look ahead]

/-- `(?=\n\s*Bénéficiaire|\n\s*Immeubles|$)`. -/
def disposantAhead : Rx :=
  .alt (rxSeq [lit false "\n", star true rxSpace, lit true "Bénéficiaire"])
       (.alt (rxSeq [lit false "\n", star true rxSpace, lit true "Immeubles"]) .eosD)

/-- `(?=\n\s*Immeubles|$)`. -/
def beneficiaireAhead : Rx :=
  .alt (rxSeq [lit false "\n", star true rxSpace, lit true "Immeubles"]) .eosD

/-- The three `disposant_patterns` (lines 512-516,
`re.IGNORECASE | re.DOTALL`). -/
def disposantPatterns : List Rx :=
  [rxSeq [lit true "Disposant", star true (.pred fun c => c = ',' || isSpace c),
          lit true "Donateur", star true rxSpace, star false rxAnyD,
          partyHeaderTail disposantAhead],
   rxSeq [lit true "Disposant", star true rxSpace, star false rxAnyD,
          partyHeaderTail disposantAhead],
   rxSeq [lit true "Donateur", star true rxSpace, star false rxAnyD,
          partyHeaderTail disposantAhead]]

/-- The three `beneficiaire_patterns` (lines 544-548). -/
def beneficiairePatterns : List Rx :=
  [rxSeq [lit true "Bénéficiaire", star true (.pred fun c => c = ',' || isSpace c),
          lit true "Donataire", star true rxSpace, star false rxAnyD,
          partyHeaderTail beneficiaireAhead],
   rxSeq [lit true "Bénéficiaire", star true rxSpace, star false rxAnyD,
          partyHeaderTail beneficiaireAhead],
   rxSeq [lit true "Donataire", star true rxSpace, star false rxAnyD,
          partyHeaderTail beneficiaireAhead]]

/-- The party row pattern
`(\d+)\s+([A-Z\'][A-Z\s\']+?)\s+(\d{2}/\d{2}/\d{4}|\d{3}\s+\d{3}\s+\d{3})`;
`ci` is true for the `re.IGNORECASE` uses (the simple fallbacks) and false
for the case-sensitive `re.findall` use. -/
def partyRow (ci : Bool) : Rx :=
  rxSeq [.grp 1 (plus true rxDigit), plus true rxSpace,
         .grp 2 (rxSeq [.pred (fun c => clsAZ ci c || c = '\''),
                        plus false (.pred fun c => clsAZ ci c || isSpace c || c = '\'')]),
         plus true rxSpace,
         .grp 3 (.alt (rxSeq [rpt 2 rxDigit, lit false "/", rpt 2 rxDigit, lit false "/",
                              rpt 4 rxDigit])
                      (rxSeq [rpt 3 rxDigit, plus true rxSpace, rpt 3 rxDigit,
                              plus true rxSpace, rpt 3 rxDigit]))]

/-- `simple_disposant` (line 535, `re.IGNORECASE | re.DOTALL`). -/
def simpleDisposantPattern : Rx :=
  rxSeq [lit true "Disposant", star false rxAnyD, lit false "\n", star false rxAnyD,
         partyRow true]

/-- `simple_beneficiaire` (line 567). -/
def simpleBeneficiairePattern : Rx :=
  rxSeq [lit true "Bénéficiaire", star false rxAnyD, lit false "\n", star false rxAnyD,
         partyRow true]

/-- Header-row literal shared by the two `immeubles_patterns`. -/
def immeublesHeader : Rx :=
  rxSeq [lit true "Bénéficiaires", plus true rxSpace, lit true "Droits", plus true rxSpace,
         lit true "Commune", plus true rxSpace, lit true "Désignation cadastrale",
         plus true rxSpace, lit true "Volume", plus true rxSpace, lit true "Lot",
         star true rxSpace, lit false "\n"]

/-- The two `immeubles_patterns` (lines 576-581,
`re.IGNORECASE | re.DOTALL`). -/
def immeublesPatterns : List Rx :=
  [rxSeq [lit true "Immeubles", star true rxSpace, star false rxAnyD, immeublesHeader,
          .grp 1 (star false rxAnyD),
          .look (.alt (rxSeq [lit false "\n", star true rxSpace, lit true "US",
                              star true rxSpace, lit false ":"])
                      .eosD)],
   rxSeq [lit true "Immeubles", star true rxSpace, lit false "\n", star true rxSpace,
          immeublesHeader,
          .grp 1 (star false rxAnyD),
          .look (.alt (rxSeq [lit false "\n", star true rxSpace,
                              .rep 2 none true (.pred (clsAZ true)), star true rxSpace,
                              lit false ":"])
                      .eosD)]]

/-- The two `ligne_patterns` (lines 595-600, case-sensitive; the
`re.MULTILINE` flag is irrelevant since they use no anchors). -/
def lignePatterns : List Rx :=
  [rxSeq [.grp 1 (rxSeq [plus true rxDigit,
                         opt (rxSeq [plus true rxSpace, lit false "à", plus true rxSpace,
                                     plus true rxDigit])]),
          plus true rxSpace,
          .grp 2 (.rep 1 (some 3) true (.pred fun c => clsAZ false c || c = '/')),
          plus true rxSpace,
          .grp 3 (plus false (.pred fun c => clsAZ false c || isSpace c || isDigitCh c)),
          plus true rxSpace,
          .grp 4 (rxSeq [.rep 1 (some 3) true (.pred (clsAZ false)), star true rxSpace,
                         plus true rxDigit]),
          star true rxSpace, lit false "\n",
          .grp 5 (star true (rxSeq [star true rxSpace, plus true rxDigit, star true rxSpace,
                                    opt (lit false "\n")]))],
   rxSeq [.grp 1 (rxSeq [plus true rxDigit,
                         opt (rxSeq [plus true rxSpace, lit false "à", plus true rxSpace,
                                     plus true rxDigit])]),
          plus true rxSpace,
          .grp 2 (.rep 2 none true (.pred (clsAZ false))),
          plus true rxSpace,
          .grp 3 (plus false (.pred fun c => clsAZ false c || isSpace c || isDigitCh c)),
          plus true rxSpace,
          .grp 4 (rxSeq [.rep 1 (some 3) true (.pred (clsAZ false)), star true rxSpace,
                         plus true rxDigit]),
          star true rxSpace, lit false "\n",
          .grp 5 (star true (rxSeq [star true rxSpace, plus true rxDigit, star true rxSpace,
                                    opt (lit false "\n")]))]]

/-- The four `montant_patterns` (lines 648-653, `re.IGNORECASE`). -/
def montantPatterns : List Rx :=
  [rxSeq [lit true "Prix/évaluation", star true rxSpace, lit false ":", star true rxSpace,
          .grp 1 eurValue],
   rxSeq [lit true "Prix", star true rxSpace, lit false ":", star true rxSpace,
          .grp 1 eurValue],
   rxSeq [lit true "Évaluation", star true rxSpace, lit false ":", star true rxSpace,
          .grp 1 eurValue],
   rxSeq [lit true "Montant", star true rxSpace, lit false ":", star true rxSpace,
          .grp 1 eurValue]]

/-- First pattern of the list whose search succeeds; yields group 1 stripped
(the section text).  The source breaks out of its loop as soon as a section
pattern matches, even when the row scan inside it finds nothing. -/
def firstSectionText : List Rx → String → Option String
  | [], _ => none
  | p :: rest, s =>
    match rxSearch p s with
    | some m => some (pyStrip (grpStr m 1))
    | none => firstSectionText rest s

def rowToPersonne (m : RxMatch) : Personne :=
  { numero := pyStrip (grpStr m 1)
    designation := pyStrip (grpStr m 2)
    date_naissance := pyStrip (grpStr m 3) }

/-- Party extraction: section patterns first, then the simple one-row
fallback when no row was produced (lines 518-541 and 550-573). -/
def extractParties (sectionPats : List Rx) (simplePat : Rx) (contenu : String) :
    List Personne :=
  let fromSection :=
    match firstSectionText sectionPats contenu with
    | some txt => (rxFindAll (partyRow false) txt).map rowToPersonne
    | none => []
  if fromSection = [] then
    match rxSearch simplePat contenu with
    | some m => [rowToPersonne m]
    | none => []
  else fromSection

def mkLigneImmeuble (m : RxMatch) : LigneImmeuble :=
  { beneficiaire_numero := pyStrip (grpStr m 1)
    droits := pyStrip (grpStr m 2)
    commune := pyStrip (grpStr m 3)
    designation_cadastrale := pyStrip (grpStr m 4)
    volume := ""
    lots := (rxFindAll digitRunPattern (grpStr m 5)).map fun (mm : RxMatch) =>
      (⟨mm.matched⟩ : String) }

/-- The ligne-pattern loop (lines 603-625): all matches of the first pattern
that produces at least one row. -/
def lignesImmeublesLoop : List Rx → String → List LigneImmeuble
  | [], _ => []
  | p :: rest, txt =>
    let lignes := (rxFindAll p txt).map mkLigneImmeuble
    if lignes ≠ [] then lignes else lignesImmeublesLoop rest txt

/-- Lines 627-645: the merged `immeubles` entry from the detailed rows. -/
def mkImmeublesData (premiere : LigneImmeuble) (lignes : List LigneImmeuble) :
    ImmeublesData :=
  { beneficiaire_numero := premiere.beneficiaire_numero
    droits := premiere.droits
    commune := premiere.commune
    designation_cadastrale := premiere.designation_cadastrale
    volume := ""
    lots := dedupFirst (lignes.flatMap fun l => l.lots)
    lignes_detaillees := lignes }

/-- Embedding of `extraire_mutations`.  The empty-content early return
(`return {}`) is modelled by the all-empty record: such a value never
reaches a `Mutation` record because `analyser_mutations` only keeps
non-empty extractions. -/
def extraire_mutations (contenu : String) : MutationsData :=
  if contenu = "" then ⟨[], [], none, ""⟩
  else
    let disposants := extractParties disposantPatterns simpleDisposantPattern contenu
    let beneficiaires := extractParties beneficiairePatterns simpleBeneficiairePattern contenu
    let immeubles_text :=
      match firstSectionText immeublesPatterns contenu with
      | some t => t
      | none => ""
    let immeubles :=
      if immeubles_text ≠ "" then
        match lignesImmeublesLoop lignePatterns immeubles_text with
        | [] => none
        | premiere :: rest => some (mkImmeublesData premiere (premiere :: rest))
      else none
    let montant := firstGroupMatch montantPatterns contenu
    { disposant_donateur := disposants
      beneficiaire_donataire := beneficiaires
      immeubles := immeubles
      montant := montant }

structure Mutation where
  numero_ordre : Nat
  date_depot : String
  date_acte : String
  nature_acte : String
  reference_enliassement : String
  mutations : MutationsData
deriving DecidableEq, Repr

/-- Embedding of `analyser_mutations`: non-mortgage, non-radiation
formalities whose extraction found at least one party or property table. -/
def analyser_mutations (formalites : List Formalite) : List Mutation :=
  formalites.filterMap fun f =>
    let nature_acte := pyUpper f.nature_acte_redacteur
    if !pyInStr "HYPOTHEQUE" nature_acte && !pyInStr "RADIATION" nature_acte then
      let mutations_data := extraire_mutations f.contenu
      if mutations_data.disposant_donateur ≠ [] ||
          mutations_data.beneficiaire_donataire ≠ [] ||
          mutations_data.immeubles.isSome then
        some { numero_ordre := f.numero_ordre
               date_depot := f.date_depot
               date_acte := f.date_acte
               nature_acte := f.nature_acte_redacteur
               reference_enliassement := f.reference_enliassement
               mutations := mutations_data }
      else none
    else none

/-! ## ReferencePropertyExtractor (`extract_tableau_derniere_page`,
lines 846-943)

The external PDF capability supplies the final page's table grids; a cell is
`Option String` (`None` or text).  A field that the source may turn from a
string into a list of strings is a `CellVal`. -/

inductive CellVal where
  | str (v : String)
  | list (vs : List String)
deriving DecidableEq, Repr

structure Immeuble where
  code : String
  commune : String
  designation_cadastrale : String
  volume : CellVal
  lot : CellVal
  page : Nat
deriving DecidableEq, Repr

/-- Lines 906-908: a lot cell with embedded line breaks becomes the list of
its non-empty stripped lines. -/
def processLotCell (s : String) : CellVal :=
  if s ≠ "" && pyInStr "\n" s then
    .list (((pySplit "\n" s).map pyStrip).filter fun l => l ≠ "")
  else .str s

/-- Lines 915-933: one volume part, expanding `"A à B"` to the enumerated
range when both bounds parse as integers (an inverted range enumerates to
nothing, as Python's `range` does). -/
def expandVolumePart (vp : String) : List String :=
  if pyInStr " à " vp then
    match pySplit " à " vp with
    | [a, b] =>
      match pyIntOpt a, pyIntOpt b with
      | some lo, some hi => (List.range' 0 (hi + 1 - lo).toNat).map fun k => toString (lo + (k : Int))
      | _, _ => [vp]
    | _ => [vp]
  else [vp]

/-- Lines 910-935: a volume cell with embedded line breaks becomes the list
of its non-empty stripped lines, each range part expanded. -/
def processVolumeCell (s : String) : CellVal :=
  if s ≠ "" && pyInStr "\n" s then
    .list ((((pySplit "\n" s).map pyStrip).filter fun v => v ≠ "").flatMap expandVolumePart)
  else .str s

/-- A cell is truthy when present and non-empty (Python `if cell`). -/
def cellTruthy : Option String → Bool
  | some v => v ≠ ""
  | none => false

/-- `str(data_row[i]).strip() if len(data_row) > i and data_row[i] else ""`. -/
def cellStrAt (row : List (Option String)) (i : Nat) : String :=
  match row.get? i with
  | some (some v) => if v ≠ "" then pyStrip v else ""
  | _ => ""

/-- Lines 895-939: map one data row to an `Immeuble`, keeping it only when
it has a code or a commune. -/
def immeubleOfRow (page : Nat) (row : List (Option String)) : Option Immeuble :=
  if row = [] || !row.any cellTruthy then none
  else
    let code := cellStrAt row 0
    let commune := cellStrAt row 1
    let designation := cellStrAt row 2
    let volume := cellStrAt row 3
    let lot := cellStrAt row 4
    if code ≠ "" || commune ≠ "" then
      some { code := code
             commune := commune
             designation_cadastrale := designation
             volume := processVolumeCell volume
             lot := processLotCell lot
             page := page }
    else none

/-- Line 885-886: the header test on a row. -/
def rowIsHeader (row : List (Option String)) : Bool :=
  let row_text := String.intercalate " " (row.filterMap fun c =>
    match c with
    | some v => if v ≠ "" then some v else none
    | none => none)
  pyInStr "CODE" (pyUpper row_text) || pyInStr "COMMUNE" (pyUpper row_text) ||
    pyInStr "DESIGNATION" (pyUpper row_text)

/-- Lines 880-939: every header-looking row replays all subsequent rows, as
in the source (which does not break out of the row loop); the per-header
blocks are appended in row order. -/
def processTable (page : Nat) : List (List (Option String)) → List Immeuble
  | [] => []
  | row :: rest =>
    (if row = [] then []
     else if rowIsHeader row then rest.filterMap (immeubleOfRow page)
     else []) ++ processTable page rest

/-- The grid-level core of `extract_tableau_derniere_page`: `page` is the
final page's 1-based number (the page count). -/
def extract_tableau_derniere_page (page : Nat)
    (tables : List (List (List (Option String)))) : List Immeuble :=
  tables.foldl (fun acc table => acc ++ processTable page table) []

/-! ## OwnershipReconstructor (`reconstituer_propriete`, lines 233-492) -/

structure Proprietaire where
  designation : String
  date_naissance : String
  numero : String
deriving DecidableEq, Repr

structure PropInfo where
  proprietaire : Proprietaire
  droits : String
  date_acquisition : String
  nature_acte : String
  numero_ordre_mutation : Nat
deriving DecidableEq, Repr

structure ImmeubleRef where
  commune : String
  designation_cadastrale : String
  code : String
deriving DecidableEq, Repr

structure ProprieteRecord where
  immeuble : ImmeubleRef
  proprietaire : Proprietaire
  lots : List String
  droits : String
  date_acquisition : String
deriving DecidableEq, Repr

/-- `convertir_date_pour_tri` (lines 290-298): `DD/MM/YYYY` to an ISO key;
a slash-less value is returned unchanged, a slashed value that does not
split in three parts falls back to `"0000-00-00"`. -/
def convertir_date_pour_tri (date_str : String) : String :=
  if date_str.data.contains '/' then
    match pySplit "/" date_str with
    | [jour, mois, annee] => annee ++ "-" ++ zfill 2 mois ++ "-" ++ zfill 2 jour
    | _ => "0000-00-00"
  else date_str

/-- The sort key comparison of lines 300-302: stable sort with descending
ISO key. -/
def mutLe (x y : Mutation) : Bool :=
  pyStrLe (convertir_date_pour_tri y.date_depot) (convertir_date_pour_tri x.date_depot)

/-- Python set membership/equality/intersection on lot sets carried as
first-occurrence lists. -/
def setEqL (a b : List String) : Bool := a.all (fun x => b.contains x) && b.all (fun x => a.contains x)

def interL (a b : List String) : List String := a.filter fun x => b.contains x

def unionL (a b : List String) : List String := dedupFirst (a ++ b)

def communeOfMut (m : Mutation) : String :=
  match m.mutations.immeubles with
  | some d => d.commune
  | none => ""

def designationOfMut (m : Mutation) : String :=
  match m.mutations.immeubles with
  | some d => d.designation_cadastrale
  | none => ""

def lotsOfMut (m : Mutation) : List String :=
  match m.mutations.immeubles with
  | some d => d.lots
  | none => []

/-- Lines 321-331: a mutation concerns the reference property when its
commune (upper-cased) is a substring of the reference commune and its
cadastral designation matches, or when it carries no property descriptor. -/
def concerneImmeuble (commune_ref designation_ref : String) (m : Mutation) : Bool :=
  if communeOfMut m ≠ "" && designationOfMut m ≠ "" then
    pyInStr (pyUpper (communeOfMut m)) (pyUpper commune_ref) &&
      designationOfMut m = designation_ref
  else true

/-- Lines 335-344: the lots concerned by one mutation. -/
def lotsConcernes (lots_ref : List String) (m : Mutation) : List String :=
  let lots_mutation := dedupFirst (lotsOfMut m)
  if lots_ref = [] && lots_mutation = [] then ["IMMEUBLE_ENTIER"]
  else interL lots_ref lots_mutation

def mkPropInfo (b : Personne) (droits : String) (m : Mutation) : PropInfo :=
  { proprietaire := { designation := b.designation
                      date_naissance := b.date_naissance
                      numero := b.numero }
    droits := droits
    date_acquisition := m.date_depot
    nature_acte := m.nature_acte
    numero_ordre_mutation := m.numero_ordre }

/-- The ordered sequence of lot-assignment attempts one mutation generates
(lines 333-413); the source's nested loops emit insertion attempts in
exactly this order, each guarded by `if lot not in propriete_lots`. -/
def attemptsOfMutation (lots_ref : List String) (commune_ref designation_ref : String)
    (m : Mutation) : List (String × PropInfo) :=
  if concerneImmeuble commune_ref designation_ref m then
    let lots_concernes := lotsConcernes lots_ref m
    if lots_concernes ≠ [] then
      let beneficiaires := m.mutations.beneficiaire_donataire
      let lignes_detaillees :=
        match m.mutations.immeubles with
        | some d => d.lignes_detaillees
        | none => []
      if beneficiaires ≠ [] && lignes_detaillees ≠ [] then
        lignes_detaillees.flatMap fun ligne =>
          let lots_ligne_concernes :=
            if lots_concernes.contains "IMMEUBLE_ENTIER" then ["IMMEUBLE_ENTIER"]
            else interL lots_concernes (dedupFirst ligne.lots)
          if lots_ligne_concernes ≠ [] then
            match beneficiaires.find? (fun b => b.numero = ligne.beneficiaire_numero) with
            | some b => lots_ligne_concernes.map fun lot => (lot, mkPropInfo b ligne.droits m)
            | none => []
          else []
      else
        match beneficiaires with
        | b :: _ =>
          let droits :=
            match m.mutations.immeubles with
            | some d => d.droits
            | none => ""
          lots_concernes.map fun lot => (lot, mkPropInfo b droits m)
        | [] => []
    else []
  else []

def lookupLot : List (String × PropInfo) → String → Option PropInfo
  | [], _ => none
  | (k, v) :: t, lot => if k = lot then some v else lookupLot t lot

/-- `if lot not in propriete_lots: propriete_lots[lot] = info` — insertion
order preserved by appending. -/
def insertIfAbsent (acc : List (String × PropInfo)) (kv : String × PropInfo) :
    List (String × PropInfo) :=
  if (lookupLot acc kv.1).isSome then acc else acc ++ [kv]

def processMutation (lots_ref : List String) (commune_ref designation_ref : String)
    (acc : List (String × PropInfo)) (m : Mutation) : List (String × PropInfo) :=
  (attemptsOfMutation lots_ref commune_ref designation_ref m).foldl insertIfAbsent acc

/-- The early-exit test of lines 419-426. -/
def stopCond (lots_ref : List String) (acc : List (String × PropInfo)) : Bool :=
  (lots_ref ≠ [] && setEqL (acc.map fun p => p.1) lots_ref) ||
    (lots_ref = [] && (acc.map fun p => p.1).contains "IMMEUBLE_ENTIER")

/-- The mutation loop (lines 315-426): process each sorted mutation, then
stop as soon as every reference lot (or the whole-property sentinel) is
assigned. -/
def loopMutations (lots_ref : List String) (commune_ref designation_ref : String) :
    List Mutation → List (String × PropInfo) → List (String × PropInfo)
  | [], acc => acc
  | m :: rest, acc =>
    if stopCond lots_ref (processMutation lots_ref commune_ref designation_ref acc m) then
      processMutation lots_ref commune_ref designation_ref acc m
    else
      loopMutations lots_ref commune_ref designation_ref rest
        (processMutation lots_ref commune_ref designation_ref acc m)

structure PropGroup where
  proprietaire : Proprietaire
  lots : List String
  droits : String
  date_acquisition_plus_recente : String
deriving DecidableEq, Repr

/-- Lines 433-446: group assignments by owner key, appending lots and
keeping the most recent acquisition date (Python string comparison). -/
def addToGroups (groups : List (String × PropGroup)) (lot : String) (info : PropInfo) :
    List (String × PropGroup) :=
  let key := info.proprietaire.designation ++ "_" ++ info.proprietaire.date_naissance
  match groups with
  | [] => [(key, { proprietaire := info.proprietaire
                   lots := [lot]
                   droits := info.droits
                   date_acquisition_plus_recente := info.date_acquisition })]
  | (k, g) :: t =>
    if k = key then
      (k, { g with
            lots := g.lots ++ [lot]
            date_acquisition_plus_recente :=
              if pyStrGt info.date_acquisition g.date_acquisition_plus_recente then
                info.date_acquisition
              else g.date_acquisition_plus_recente }) :: t
    else (k, g) :: addToGroups t lot info

def groupProprietaires (assignments : List (String × PropInfo)) : List (String × PropGroup) :=
  assignments.foldl (fun gs p => addToGroups gs p.1 p.2) []

def sortStr (l : List String) : List String := sortD strLeLOn l
  where strLeLOn (a b : String) : Bool := pyStrLe a b

/-- Lines 448-486: render the grouped assignments and the unassigned lots. -/
def renderPropriete (immeuble_ref : Immeuble) (lots_ref : List String)
    (propriete_lots : List (String × PropInfo)) : List ProprieteRecord :=
  let immeubleOut : ImmeubleRef :=
    { commune := immeuble_ref.commune
      designation_cadastrale := immeuble_ref.designation_cadastrale
      code := immeuble_ref.code }
  let fromGroups := (groupProprietaires propriete_lots).map fun (_, g) =>
    let lots_finaux :=
      if g.lots.contains "IMMEUBLE_ENTIER" then ["Immeuble entier"]
      else sortStr (g.lots.filter fun lot => lot ≠ "IMMEUBLE_ENTIER")
    { immeuble := immeubleOut
      proprietaire := g.proprietaire
      lots := lots_finaux
      droits := g.droits
      date_acquisition := g.date_acquisition_plus_recente }
  let assigned := propriete_lots.map fun p => p.1
  let lots_non_attribues := lots_ref.filter fun lot => !assigned.contains lot
  fromGroups ++
    (if lots_non_attribues ≠ [] then
      [{ immeuble := immeubleOut
         proprietaire := { designation := "PROPRIETAIRE INCONNU", date_naissance := "", numero := "" }
         lots := sortStr lots_non_attribues
         droits := "INCONNU"
         date_acquisition := "" }]
    else [])

/-- Lines 259-287: when the reference property carries no lots, backfill
from matching mutations (commune-substring and exact designation), then
from commune-only matches. -/
def backfillLots (mutations : List Mutation) (commune_ref designation_ref : String) :
    List String :=
  let pass1 := mutations.foldl
    (fun acc m =>
      if pyInStr (pyUpper (communeOfMut m)) (pyUpper commune_ref) &&
          designationOfMut m = designation_ref then
        unionL acc (lotsOfMut m)
      else acc)
    []
  if pass1 ≠ [] then pass1
  else
    mutations.foldl
      (fun acc m =>
        if pyInStr (pyUpper (communeOfMut m)) (pyUpper commune_ref) then
          unionL acc (lotsOfMut m)
        else acc)
      []

/-- Embedding of `reconstituer_propriete`. -/
def reconstituer_propriete (mutations : List Mutation) (immeubles : List Immeuble) :
    List ProprieteRecord :=
  match mutations, immeubles with
  | [], _ => []
  | _ :: _, [] => []
  | _ :: _, immeuble_ref :: _ =>
    let lots0 : List String :=
      match immeuble_ref.lot with
      | .str v => if pyStrip v ≠ "" then [v] else []
      | .list vs => dedupFirst vs
    let commune_ref := immeuble_ref.commune
    let designation_ref := immeuble_ref.designation_cadastrale
    let lots_ref :=
      if lots0 = [] then backfillLots mutations commune_ref designation_ref else lots0
    let mutations_triees := sortD mutLe mutations
    let propriete_lots := loopMutations lots_ref commune_ref designation_ref mutations_triees []
    renderPropriete immeuble_ref lots_ref propriete_lots

/-! ## ExtractionPipeline (`extraction_complete_ehf`, lines 945-1074)

The document-level inputs are the concatenated page text, the page count and
the final page's table grids — exactly what the external PDF capability
supplies — plus the source file's stem used in the statistics block. -/

structure Statistiques where
  nombre_total_formalites : Nat
  nombre_hypotheques_actives : Nat
  nombre_mutations : Nat
  comptage_par_type : List (String × Nat)
  date_extraction : String
  fichier_source : String
  propriete_reconstituee : Bool
deriving DecidableEq, Repr

structure StructureFinale where
  formalites : List Formalite
  hypotheques_actives : List HypothequeActive
  mutations : List Mutation
  statistiques : Statistiques
  propriete_actuelle : List ProprieteRecord
deriving DecidableEq, Repr

structure PipelineOutput where
  structure_finale : StructureFinale
  immeubles : List Immeuble
deriving DecidableEq, Repr

/-- Embedding of `extraction_complete_ehf` minus file I/O: the two JSON
documents it writes, assembled from the same calls in the same order. -/
def extraction_complete_ehf (full_text : String) (page_count : Nat)
    (tables : List (List (List (Option String)))) (pdf_name : String) : PipelineOutput :=
  let formalites := extract_formalites full_text
  let comptage_types := comptage_trie formalites
  let hypotheques_actives := analyser_hypotheques_actives formalites
  let mutations := analyser_mutations formalites
  let immeubles := extract_tableau_derniere_page page_count tables
  let propriete_actuelle := reconstituer_propriete mutations immeubles
  { structure_finale :=
      { formalites := formalites
        hypotheques_actives := hypotheques_actives
        mutations := mutations
        statistiques :=
          { nombre_total_formalites := formalites.length
            nombre_hypotheques_actives := hypotheques_actives.length
            nombre_mutations := mutations.length
            comptage_par_type := comptage_types
            date_extraction := "2024-10-30"
            fichier_source := pdf_name
            propriete_reconstituee := propriete_actuelle.length > 0 }
        propriete_actuelle := propriete_actuelle }
    immeubles := immeubles }

/-! ## Auxiliary definitions for the verification statements -/

/-- `date_depot` values of the shape `DD/MM/YYYY` (ten characters, digits
around slashes): the parseable dates of the sort-key conversion. -/
def estDateJJMMAAAA (s : String) : Bool :=
  match s.data with
  | [d1, d2, s1, m1, m2, s2, a1, a2, a3, a4] =>
    isDigitCh d1 && isDigitCh d2 && s1 = '/' && isDigitCh m1 && isDigitCh m2 && s2 = '/' &&
      isDigitCh a1 && isDigitCh a2 && isDigitCh a3 && isDigitCh a4
  | _ => false

/-- The classification keys actually counted by the aggregation loop: one
canonical label per formality whose `nature_acte_redacteur` is neither empty
nor the not-found sentinel. -/
def keysOf (formalites : List Formalite) : List String :=
  formalites.filterMap fun f =>
    if natureValide f then some (classifier_type_acte (pyStrip f.nature_acte_redacteur))
    else none

/-- Count lookup in the label-to-count association list (0 when absent). -/
def lookCnt : List (String × Nat) → String → Nat
  | [], _ => 0
  | (k, v) :: t, lbl => if k = lbl then v else lookCnt t lbl

/-- The prefix of the sorted mutation list that the reconstruction loop
actually processes before its early exit fires. -/
def processedPrefix (lots_ref : List String) (commune_ref designation_ref : String) :
    List Mutation → List (String × PropInfo) → List Mutation
  | [], _ => []
  | m :: rest, acc =>
    m :: (if stopCond lots_ref (processMutation lots_ref commune_ref designation_ref acc m) then []
          else processedPrefix lots_ref commune_ref designation_ref rest
            (processMutation lots_ref commune_ref designation_ref acc m))

/-- Comparison definition following the claim's words for `classify`: the
text preceding the first occurrence of ANY phrase variant, trimmed; the
trimmed input when no variant occurs. -/
def classifySpecFirstVariant (text : String) : String :=
  let t := pyStripL text.data
  match phraseSearchIdx (fun c => lowerFr c = 'é' || lowerFr c = 'e') 0 t with
  | some i => ⟨pyStripL (t.take i)⟩
  | none => ⟨t⟩

/-- Comparison definition following the amended claim's words for
`classify`: the text preceding the first occurrence of the é-accented
variant when one occurs, otherwise of the unaccented variant, trimmed;
the trimmed input when neither occurs. -/
def classifySpecAmended (text : String) : String :=
  let t := pyStripL text.data
  match phraseSearchIdx (fun c => lowerFr c = 'é') 0 t with
  | some i => ⟨pyStripL (t.take i)⟩
  | none =>
    match phraseSearchIdx (fun c => lowerFr c = 'e') 0 t with
    | some i => ⟨pyStripL (t.take i)⟩
    | none => ⟨t⟩

/-- Comparison definition following the claim's words for a table cell: any
cell with embedded line breaks becomes the list of its non-empty stripped
lines. -/
def specSplitCell (s : String) : List String :=
  ((pySplit "\n" s).map pyStrip).filter fun v => v ≠ ""

/-- The enumerated integer sequence from `lo` to `hi` inclusive. -/
def intRangeIncl (lo hi : Int) : List Int :=
  (List.range' 0 (hi + 1 - lo).toNat).map fun k => lo + (k : Int)

/-- Comparison definition following the claim's words for a volume value:
one of the form `A à B` with integer bounds enumerates the range, any other
is kept as is. -/
def specExpandRange (vp : String) : List String :=
  match pySplit " à " vp with
  | [a, b] =>
    match pyIntOpt a, pyIntOpt b with
    | some lo, some hi => (intRangeIncl lo hi).map toString
    | _, _ => [vp]
  | _ => [vp]

/-! ### Concrete data for the counterexamples and witnesses -/

def emptyMutData : MutationsData := ⟨[], [], none, ""⟩

/-- A mutation whose deposit date is the not-found sentinel. -/
def c2MutNF : Mutation :=
  { numero_ordre := 1, date_depot := "Non trouvé", date_acte := "Non trouvé",
    nature_acte := "VENTE", reference_enliassement := "", mutations := emptyMutData }

/-- A mutation with a parseable deposit date. -/
def c2MutD : Mutation :=
  { numero_ordre := 2, date_depot := "12/03/2010", date_acte := "Non trouvé",
    nature_acte := "VENTE", reference_enliassement := "", mutations := emptyMutData }

/-- A mortgage formality with deposit date 12/03/2010. -/
def c4Hyp : Formalite :=
  { numero_ordre := 1, date_depot := "12/03/2010", date_acte := "Non trouvé",
    contenu := "Date de depot: 12/03/2010", nature_acte_redacteur := "HYPOTHEQUE CONVENTIONNELLE",
    reference_enliassement := "" }

/-- A cancellation whose act text names that date. -/
def c4Rad : Formalite :=
  { numero_ordre := 2, date_depot := "20/06/2015", date_acte := "Non trouvé",
    contenu := "Date de depot: 20/06/2015",
    nature_acte_redacteur := "RADIATION TOTALE DE L'HYPOTHEQUE DU 12/03/2010",
    reference_enliassement := "" }

/-- Owner X, beneficiary of the most recent mutation of the reconstruction
example. -/
def c1BenX : Personne := { numero := "1", designation := "X OWNER", date_naissance := "01/01/1970" }

def c1BenY : Personne := { numero := "1", designation := "Y OWNER", date_naissance := "02/02/1940" }

def c1ImmA : ImmeublesData :=
  { beneficiaire_numero := "1", droits := "TP", commune := "PARIS",
    designation_cadastrale := "CJ 42", volume := "", lots := ["9"], lignes_detaillees := [] }

def c1ImmB : ImmeublesData := { c1ImmA with lots := ["9", "17"] }

/-- Mutation A: the most recent, assigning lot 9 to owner X. -/
def c1MutA : Mutation :=
  { numero_ordre := 2, date_depot := "02/01/2021", date_acte := "Non trouvé",
    nature_acte := "VENTE", reference_enliassement := "",
    mutations := { disposant_donateur := [], beneficiaire_donataire := [c1BenX],
                   immeubles := some c1ImmA, montant := "" } }

/-- Mutation B: older, assigning lots 9 and 17 to owner Y. -/
def c1MutB : Mutation :=
  { numero_ordre := 5, date_depot := "01/01/2021", date_acte := "Non trouvé",
    nature_acte := "DONATION", reference_enliassement := "",
    mutations := { disposant_donateur := [], beneficiaire_donataire := [c1BenY],
                   immeubles := some c1ImmB, montant := "" } }

/-- An even older mutation, used to show it is never processed after the
early exit. -/
def c5MutC : Mutation :=
  { numero_ordre := 7, date_depot := "01/01/1990", date_acte := "Non trouvé",
    nature_acte := "VENTE", reference_enliassement := "",
    mutations := { disposant_donateur := [], beneficiaire_donataire := [c1BenY],
                   immeubles := some c1ImmB, montant := "" } }

/-- The reference property with lots 9 and 17. -/
def c1RefImmeuble : Immeuble :=
  { code := "1", commune := "PARIS", designation_cadastrale := "CJ 42",
    volume := .str "", lot := .list ["9", "17"], page := 12 }

/-- A formality detected as a mortgage only through the implicit criterion
while also carrying an extractable party table. -/
def c10Formalite : Formalite :=
  { numero_ordre := 7, date_depot := "04/05/2012", date_acte := "Non trouvé",
    contenu := "Date de depot: 04/05/2012\nDisposant\n1 AB 01/01/2000\nCRÉANCIERS DÉBITEUR",
    nature_acte_redacteur := "ACTE DIVERS", reference_enliassement := "" }

/-- Valid formalities giving a count tie, for the first-seen tiebreak
witness. -/
def c7F1 : Formalite :=
  { numero_ordre := 1, date_depot := "01/01/2000", date_acte := "Non trouvé",
    contenu := "Date de depot: x", nature_acte_redacteur := "VENTE",
    reference_enliassement := "" }

def c7F2 : Formalite := { c7F1 with numero_ordre := 2, nature_acte_redacteur := "DONATION" }

/-- The grid of the C8 counterexample: a single-line volume cell holding a
range. -/
def c8Grid : List (List (Option String)) :=
  [[some "CODE", some "COMMUNE", some "DESIGNATION", some "VOLUME", some "LOT"],
   [some "1", some "PARIS", some "CJ 42", some "71 à 72", some "9"]]

/-! ## Lemmas: lexicographic comparison and the stable sort -/

theorem strLeL_total (a b : List Char) : strLeL a b = true ∨ strLeL b a = true := by
  induction a generalizing b with
  | nil => exact Or.inl rfl
  | cons x xs ih =>
    cases b with
    | nil => exact Or.inr rfl
    | cons y ys =>
      by_cases hxy : x = y
      · subst hxy
        simpa [strLeL] using ih ys
      · rcases lt_or_gt_of_ne hxy with h | h
        · exact Or.inl (by simp [strLeL, hxy, h])
        · exact Or.inr (by simp [strLeL, Ne.symm hxy, h])

theorem strLeL_trans : ∀ a b c : List Char,
    strLeL a b = true → strLeL b c = true → strLeL a c = true
  | [], _, _, _, _ => rfl
  | _ :: _, [], _, h1, _ => by simp [strLeL] at h1
  | _ :: _, _ :: _, [], _, h2 => by simp [strLeL] at h2
  | x :: xs, y :: ys, z :: zs, h1, h2 => by
    by_cases hxy : x = y <;> by_cases hyz : y = z
    · subst hxy; subst hyz
      simp only [strLeL, if_pos rfl] at h1 h2 ⊢
      exact strLeL_trans xs ys zs h1 h2
    · subst hxy
      simp only [strLeL, if_pos rfl, if_neg hyz] at h2 ⊢
      exact h2
    · subst hyz
      simp only [strLeL, if_neg hxy] at h1 ⊢
      exact h1
    · simp only [strLeL, if_neg hxy] at h1
      simp only [strLeL, if_neg hyz] at h2
      have hxz : x < z := lt_trans (of_decide_eq_true h1) (of_decide_eq_true h2)
      simp [strLeL, ne_of_lt hxz, hxz]

theorem insertD_perm {α : Type} (le : α → α → Bool) (x : α) :
    ∀ l : List α, (insertD le x l).Perm (x :: l)
  | [] => List.Perm.refl _
  | y :: ys => by
    by_cases h : le x y
    · simp [insertD, h]
    · simp only [insertD, if_neg h]
      exact ((insertD_perm le x ys).cons y).trans (List.Perm.swap x y ys)

theorem sortD_perm {α : Type} (le : α → α → Bool) : ∀ l : List α, (sortD le l).Perm l
  | [] => List.Perm.refl _
  | x :: xs => (insertD_perm le x (sortD le xs)).trans ((sortD_perm le xs).cons x)

theorem insertD_pairwise {α : Type} {le : α → α → Bool}
    (total : ∀ a b, le a b = true ∨ le b a = true)
    (htrans : ∀ a b c, le a b = true → le b c = true → le a c = true) (x : α) :
    ∀ l : List α, l.Pairwise (fun a b => le a b = true) →
      (insertD le x l).Pairwise (fun a b => le a b = true)
  | [], _ => by simp [insertD]
  | y :: ys, h => by
    rcases List.pairwise_cons.mp h with ⟨hy, hys⟩
    by_cases hxy : le x y
    · simp only [insertD, if_pos hxy]
      refine List.pairwise_cons.mpr ⟨?_, h⟩
      intro z hz
      rcases List.mem_cons.mp hz with rfl | hz
      · exact hxy
      · exact htrans x y z hxy (hy z hz)
    · simp only [insertD, if_neg hxy]
      refine List.pairwise_cons.mpr ⟨?_, insertD_pairwise total htrans x ys hys⟩
      intro z hz
      rcases List.mem_cons.mp ((insertD_perm le x ys).mem_iff.mp hz) with rfl | hz'
      · rcases total z y with h' | h'
        · exact absurd h' hxy
        · exact h'
      · exact hy z hz'

theorem sortD_pairwise {α : Type} {le : α → α → Bool}
    (total : ∀ a b, le a b = true ∨ le b a = true)
    (htrans : ∀ a b c, le a b = true → le b c = true → le a c = true) :
    ∀ l : List α, (sortD le l).Pairwise (fun a b => le a b = true)
  | [] => List.Pairwise.nil
  | x :: xs => insertD_pairwise total htrans x _ (sortD_pairwise total htrans xs)

theorem sublist_insertD {α : Type} (le : α → α → Bool) (x : α) {s : List α} :
    ∀ {t : List α}, s.Sublist t → s.Sublist (insertD le x t) := by
  intro t h
  induction t generalizing s with
  | nil =>
    rw [List.sublist_nil.mp h]
    exact List.nil_sublist _
  | cons y ys ih =>
    by_cases hxy : le x y
    · simpa [insertD, hxy] using h.cons x
    · simp only [insertD, if_neg hxy]
      rcases List.sublist_cons_iff.mp h with h' | ⟨r, rfl, hr⟩
      · exact (ih h').cons y
      · exact (ih hr).cons₂ y

theorem insertD_mem_before {α : Type} {le : α → α → Bool} {x b : α}
    (hxb : le x b = true) : ∀ {l : List α}, b ∈ l → [x, b].Sublist (insertD le x l) := by
  intro l hb
  induction l with
  | nil => cases hb
  | cons y ys ih =>
    by_cases hxy : le x y
    · simp only [insertD, if_pos hxy]
      exact (List.singleton_sublist.mpr hb).cons₂ x
    · simp only [insertD, if_neg hxy]
      rcases List.mem_cons.mp hb with rfl | hb
      · exact absurd hxb hxy
      · exact (ih hb).cons y

theorem sortD_stable_pair {α : Type} {le : α → α → Bool} {a b : α}
    (hab : le a b = true) : ∀ {l : List α}, [a, b].Sublist l → [a, b].Sublist (sortD le l) := by
  intro l h
  induction l with
  | nil => simp at h
  | cons x xs ih =>
    rcases List.sublist_cons_iff.mp h with h' | ⟨r, hr, hrs⟩
    · exact sublist_insertD le x (ih h')
    · obtain ⟨rfl, rfl⟩ : x = a ∧ r = [b] := by
        injection hr with h1 h2
        exact ⟨h1.symm, h2.symm⟩
      have hbmem : b ∈ sortD le xs :=
        (sortD_perm le xs).mem_iff.mpr (List.singleton_sublist.mp hrs)
      exact insertD_mem_before hab hbmem

/-! ## Lemmas: the first-writer-wins assignment map -/

theorem lookupLot_append (acc₁ acc₂ : List (String × PropInfo)) (l : String) :
    lookupLot (acc₁ ++ acc₂) l = (lookupLot acc₁ l).or (lookupLot acc₂ l) := by
  induction acc₁ with
  | nil => simp [lookupLot]
  | cons p t ih =>
    rcases p with ⟨k, v⟩
    by_cases hk : k = l
    · simp [lookupLot, hk]
    · simp [lookupLot, hk, ih]

theorem lookupLot_eq_none_iff {acc : List (String × PropInfo)} {l : String} :
    lookupLot acc l = none ↔ l ∉ acc.map Prod.fst := by
  induction acc with
  | nil => simp [lookupLot]
  | cons p t ih =>
    rcases p with ⟨k, v⟩
    by_cases hk : k = l
    · simp [lookupLot, hk]
    · simp [lookupLot, hk, ih, Ne.symm hk]

theorem lookupLot_insertIfAbsent_some {acc : List (String × PropInfo)}
    {kv : String × PropInfo} {l : String} {v : PropInfo} (h : lookupLot acc l = some v) :
    lookupLot (insertIfAbsent acc kv) l = some v := by
  unfold insertIfAbsent
  by_cases hk : (lookupLot acc kv.1).isSome
  · simpa [hk] using h
  · rw [if_neg hk, lookupLot_append, h]
    simp [Option.or]

theorem lookupLot_insertIfAbsent_none {acc : List (String × PropInfo)}
    {kv : String × PropInfo} {l : String} (h : lookupLot acc l = none) (hne : kv.1 ≠ l) :
    lookupLot (insertIfAbsent acc kv) l = none := by
  unfold insertIfAbsent
  by_cases hk : (lookupLot acc kv.1).isSome
  · simpa [hk] using h
  · rw [if_neg hk, lookupLot_append, h]
    simp [Option.or, lookupLot, hne]

theorem lookupLot_insertIfAbsent_hit {acc : List (String × PropInfo)}
    {kv : String × PropInfo} (h : lookupLot acc kv.1 = none) :
    lookupLot (insertIfAbsent acc kv) kv.1 = some kv.2 := by
  unfold insertIfAbsent
  rw [if_neg (by simp [h]), lookupLot_append, h]
  simp [Option.or, lookupLot]

theorem lookupLot_foldl_some {xs : List (String × PropInfo)}
    {acc : List (String × PropInfo)} {l : String} {v : PropInfo}
    (h : lookupLot acc l = some v) :
    lookupLot (xs.foldl insertIfAbsent acc) l = some v := by
  induction xs generalizing acc with
  | nil => exact h
  | cons x xs ih => exact ih (lookupLot_insertIfAbsent_some h)

theorem lookupLot_foldl_congr {xs : List (String × PropInfo)} {l : String} :
    ∀ {acc₁ acc₂ : List (String × PropInfo)}, lookupLot acc₁ l = none →
      lookupLot acc₂ l = none →
      lookupLot (xs.foldl insertIfAbsent acc₁) l = lookupLot (xs.foldl insertIfAbsent acc₂) l := by
  induction xs with
  | nil => intro acc₁ acc₂ h1 h2; rw [List.foldl_nil, List.foldl_nil, h1, h2]
  | cons x xs ih =>
    intro acc₁ acc₂ h1 h2
    by_cases hx : x.1 = l
    · subst hx
      rw [List.foldl_cons, List.foldl_cons,
        lookupLot_foldl_some (lookupLot_insertIfAbsent_hit h1),
        lookupLot_foldl_some (lookupLot_insertIfAbsent_hit h2)]
    · exact ih (lookupLot_insertIfAbsent_none h1 hx) (lookupLot_insertIfAbsent_none h2 hx)

/-- The frame property of one mutation step: an existing binding is kept,
and a missing one is filled exactly as a run from the empty map would. -/
theorem lookupLot_processMutation (lots_ref : List String)
    (commune_ref designation_ref : String) (acc : List (String × PropInfo)) (m : Mutation)
    (l : String) :
    lookupLot (processMutation lots_ref commune_ref designation_ref acc m) l =
      (lookupLot acc l).or
        (lookupLot (processMutation lots_ref commune_ref designation_ref [] m) l) := by
  unfold processMutation
  rcases h : lookupLot acc l with _ | v
  · simpa [Option.or] using
      @lookupLot_foldl_congr _ _ _ [] h (by simp [lookupLot])
  · simpa [Option.or] using
      @lookupLot_foldl_some (attemptsOfMutation lots_ref commune_ref designation_ref m) acc l v h

theorem keys_insertIfAbsent_nodup {acc : List (String × PropInfo)}
    {kv : String × PropInfo} (h : (acc.map Prod.fst).Nodup) :
    ((insertIfAbsent acc kv).map Prod.fst).Nodup := by
  unfold insertIfAbsent
  by_cases hk : (lookupLot acc kv.1).isSome
  · simpa [hk]
  · rw [if_neg hk, List.map_append]
    refine List.Nodup.append h (by simp) ?_
    intro x hx hx'
    simp only [List.map_cons, List.map_nil, List.mem_cons, List.not_mem_nil, or_false] at hx'
    subst hx'
    have : lookupLot acc kv.1 = none := by
      rcases hl : lookupLot acc kv.1 with _ | v
      · rfl
      · simp [hl] at hk
    exact (lookupLot_eq_none_iff.mp this) hx

theorem keys_foldl_nodup {xs : List (String × PropInfo)} :
    ∀ {acc : List (String × PropInfo)}, (acc.map Prod.fst).Nodup →
      ((xs.foldl insertIfAbsent acc).map Prod.fst).Nodup := by
  induction xs with
  | nil => intro acc h; exact h
  | cons x xs ih => intro acc h; exact ih (keys_insertIfAbsent_nodup h)

theorem keys_loopMutations_nodup (lots_ref : List String)
    (commune_ref designation_ref : String) :
    ∀ (ms : List Mutation) {acc : List (String × PropInfo)},
      (acc.map Prod.fst).Nodup →
      ((loopMutations lots_ref commune_ref designation_ref ms acc).map Prod.fst).Nodup := by
  intro ms
  induction ms with
  | nil => intro acc h; exact h
  | cons m rest ih =>
    intro acc h
    have h' : ((processMutation lots_ref commune_ref designation_ref acc m).map Prod.fst).Nodup :=
      keys_foldl_nodup h
    unfold loopMutations
    by_cases hstop : stopCond lots_ref (processMutation lots_ref commune_ref designation_ref acc m)
    · simpa [hstop]
    · simpa [hstop] using ih h'

theorem loopMutations_cons (lots_ref : List String) (commune_ref designation_ref : String)
    (m : Mutation) (rest : List Mutation) (acc : List (String × PropInfo)) :
    loopMutations lots_ref commune_ref designation_ref (m :: rest) acc =
      if stopCond lots_ref (processMutation lots_ref commune_ref designation_ref acc m) then
        processMutation lots_ref commune_ref designation_ref acc m
      else
        loopMutations lots_ref commune_ref designation_ref rest
          (processMutation lots_ref commune_ref designation_ref acc m) := rfl

theorem processedPrefix_cons (lots_ref : List String) (commune_ref designation_ref : String)
    (m : Mutation) (rest : List Mutation) (acc : List (String × PropInfo)) :
    processedPrefix lots_ref commune_ref designation_ref (m :: rest) acc =
      m :: (if stopCond lots_ref (processMutation lots_ref commune_ref designation_ref acc m) then
              []
            else
              processedPrefix lots_ref commune_ref designation_ref rest
                (processMutation lots_ref commune_ref designation_ref acc m)) := rfl

theorem findSome?_cons_or {α β : Type} (f : α → Option β) (x : α) (xs : List α) :
    List.findSome? f (x :: xs) = (f x).or (List.findSome? f xs) := by
  rcases h : f x with _ | b <;> simp [List.findSome?_cons, h, Option.or]

theorem option_or_none {α : Type} (o : Option α) : o.or none = o := by
  cases o <;> simp [Option.or]

/-- The loop's final binding of a lot is contributed by the first processed
mutation whose own from-scratch run assigns that lot. -/
theorem lookupLot_loopMutations (lots_ref : List String)
    (commune_ref designation_ref : String) :
    ∀ (ms : List Mutation) (acc : List (String × PropInfo)) (l : String),
      lookupLot (loopMutations lots_ref commune_ref designation_ref ms acc) l =
        (lookupLot acc l).or
          ((processedPrefix lots_ref commune_ref designation_ref ms acc).findSome? fun m =>
            lookupLot (processMutation lots_ref commune_ref designation_ref [] m) l) := by
  intro ms
  induction ms with
  | nil => intro acc l; simp [loopMutations, processedPrefix, option_or_none]
  | cons m rest ih =>
    intro acc l
    unfold loopMutations processedPrefix
    by_cases hstop : stopCond lots_ref (processMutation lots_ref commune_ref designation_ref acc m)
    · rw [if_pos hstop, if_pos hstop, findSome?_cons_or, List.findSome?_nil, option_or_none,
        lookupLot_processMutation]
    · rw [if_neg hstop, if_neg hstop, findSome?_cons_or, ih, lookupLot_processMutation,
        Option.or_assoc]

/-- Once the early-exit condition holds after some processed mutation, any
further mutations appended to the list leave the result unchanged. -/
theorem loopMutations_append_of_stop (lots_ref : List String)
    (commune_ref designation_ref : String) :
    ∀ (ms tail : List Mutation) (acc : List (String × PropInfo)), ms ≠ [] →
      stopCond lots_ref (loopMutations lots_ref commune_ref designation_ref ms acc) = true →
      loopMutations lots_ref commune_ref designation_ref (ms ++ tail) acc =
        loopMutations lots_ref commune_ref designation_ref ms acc := by
  intro ms
  induction ms with
  | nil => intro tail acc hne; exact absurd rfl hne
  | cons m rest ih =>
    intro tail acc _ hstop
    rw [loopMutations_cons] at hstop
    rw [List.cons_append, loopMutations_cons, loopMutations_cons]
    by_cases h1 : stopCond lots_ref (processMutation lots_ref commune_ref designation_ref acc m)
    · rw [if_pos h1, if_pos h1]
    · rw [if_neg h1] at hstop
      rw [if_neg h1, if_neg h1]
      rcases rest with _ | ⟨m2, rest2⟩
      · exact absurd hstop h1
      · exact ih tail _ (by simp) hstop

/-! ## Lemmas: the date sort key -/

theorem digit_lt_N {c : Char} (h : isDigitCh c = true) : c < 'N' := by
  simp only [isDigitCh, Bool.and_eq_true, decide_eq_true_eq] at h
  exact lt_of_le_of_lt h.2 (by decide)

theorem slash_ne_digit {c : Char} (h : isDigitCh c = true) : ('/' : Char) ≠ c := by
  simp only [isDigitCh, Bool.and_eq_true, decide_eq_true_eq] at h
  intro he
  rw [← he] at h
  exact absurd h.1 (by decide)

theorem splitOnFuel_slash_date {d1 d2 m1 m2 a1 a2 a3 a4 : Char}
    (hd1 : isDigitCh d1 = true) (hd2 : isDigitCh d2 = true)
    (hm1 : isDigitCh m1 = true) (hm2 : isDigitCh m2 = true)
    (ha1 : isDigitCh a1 = true) (ha2 : isDigitCh a2 = true)
    (ha3 : isDigitCh a3 = true) (ha4 : isDigitCh a4 = true) :
    splitOnFuel ['/'] 10 [d1, d2, '/', m1, m2, '/', a1, a2, a3, a4] =
      [[d1, d2], [m1, m2], [a1, a2, a3, a4]] := by
  simp [splitOnFuel, leadsWith, slash_ne_digit hd1, slash_ne_digit hd2,
    slash_ne_digit hm1, slash_ne_digit hm2, slash_ne_digit ha1, slash_ne_digit ha2,
    slash_ne_digit ha3, slash_ne_digit ha4]

theorem convertir_parseable_head {s : String} (h : estDateJJMMAAAA s = true) :
    ∃ c t, (convertir_date_pour_tri s).data = c :: t ∧ isDigitCh c = true := by
  unfold estDateJJMMAAAA at h
  split at h
  case h_2 => exact absurd h (by simp)
  case h_1 d1 d2 s1 m1 m2 s2 a1 a2 a3 a4 heq =>
    simp only [Bool.and_eq_true, decide_eq_true_eq] at h
    obtain ⟨⟨⟨⟨⟨⟨⟨⟨⟨hd1, hd2⟩, hs1⟩, hm1⟩, hm2⟩, hs2⟩, ha1⟩, ha2⟩, ha3⟩, ha4⟩ := h
    subst hs1; subst hs2
    have hsplit : pySplit "/" s = [⟨[d1, d2]⟩, ⟨[m1, m2]⟩, ⟨[a1, a2, a3, a4]⟩] := by
      unfold pySplit
      rw [heq]
      have h10 : ([d1, d2, '/', m1, m2, '/', a1, a2, a3, a4] : List Char).length = 10 := rfl
      rw [h10, splitOnFuel_slash_date hd1 hd2 hm1 hm2 ha1 ha2 ha3 ha4]
      rfl
    have hcontains : s.data.contains '/' = true := by
      rw [heq]
      simp [List.contains]
    unfold convertir_date_pour_tri
    rw [if_pos hcontains, hsplit]
    exact ⟨a1, _, rfl, ha1⟩

theorem mutLe_total (x y : Mutation) : mutLe x y = true ∨ mutLe y x = true := by
  unfold mutLe pyStrLe
  rcases strLeL_total (convertir_date_pour_tri y.date_depot).data
    (convertir_date_pour_tri x.date_depot).data with h | h
  · exact Or.inl h
  · exact Or.inr h

theorem mutLe_trans (x y z : Mutation) (h1 : mutLe x y = true) (h2 : mutLe y z = true) :
    mutLe x z = true := by
  unfold mutLe pyStrLe at h1 h2 ⊢
  exact strLeL_trans _ _ _ h2 h1

/-- A parseable date never sorts before the not-found sentinel in the
descending comparison. -/
theorem mutLe_parseable_sentinel {x y : Mutation} (hx : x.date_depot = "Non trouvé")
    (hy : estDateJJMMAAAA y.date_depot = true) : mutLe y x = false := by
  obtain ⟨c, t, hct, hc⟩ := convertir_parseable_head hy
  unfold mutLe pyStrLe
  rw [hx]
  have : (convertir_date_pour_tri "Non trouvé") = "Non trouvé" := rfl
  rw [this, hct]
  show strLeL ('N' :: "on trouvé".data) (c :: t) = false
  have hlt : c < 'N' := digit_lt_N hc
  simp [strLeL, ne_of_gt hlt, not_lt_of_lt hlt]

/-! ## Lemmas: the act-type count aggregation -/

theorem lookCnt_bump (k : String) : ∀ (acc : List (String × Nat)) (lbl : String),
    lookCnt (bump k acc) lbl = if k = lbl then lookCnt acc lbl + 1 else lookCnt acc lbl
  | [], lbl => by
    by_cases h : k = lbl <;> simp [bump, lookCnt, h]
  | (j, m) :: t, lbl => by
    by_cases hjk : j = k
    · subst hjk
      by_cases hjl : j = lbl <;> simp [bump, lookCnt, hjl]
    · by_cases hjl : j = lbl
      · subst hjl
        simp [bump, lookCnt, hjk, Ne.symm hjk]
      · simp [bump, lookCnt, hjk, hjl, lookCnt_bump k t lbl]

theorem bump_inv {k : String} : ∀ {acc : List (String × Nat)},
    (acc.map Prod.fst).Nodup → (∀ p ∈ acc, p.2 ≠ 0) →
    ((bump k acc).map Prod.fst).Nodup ∧ (∀ p ∈ bump k acc, p.2 ≠ 0) ∧
      (bump k acc).map Prod.fst = (if k ∈ acc.map Prod.fst then acc.map Prod.fst
        else acc.map Prod.fst ++ [k]) := by
  intro acc
  induction acc with
  | nil => intro _ _; simp [bump]
  | cons p t ih =>
    rcases p with ⟨j, m⟩
    intro hnd hnz
    simp only [List.map_cons, List.nodup_cons] at hnd
    by_cases hjk : j = k
    · subst hjk
      refine ⟨?_, ?_, ?_⟩
      · simp [bump, hnd]
      · intro q hq
        rcases List.mem_cons.mp (by simpa [bump] using hq) with rfl | hq'
        · simp
        · exact hnz q (List.mem_cons_of_mem _ hq')
      · simp [bump]
    · have iht := ih hnd.2 (fun q hq => hnz q (List.mem_cons_of_mem _ hq))
      refine ⟨?_, ?_, ?_⟩
      · simp only [bump, if_neg (by exact fun h => hjk h), List.map_cons, List.nodup_cons]
        refine ⟨?_, iht.1⟩
        rw [iht.2.2]
        by_cases hk : k ∈ t.map Prod.fst
        · rw [if_pos hk]; exact hnd.1
        · rw [if_neg hk]
          intro hmem
          rcases List.mem_append.mp hmem with h | h
          · exact hnd.1 h
          · simp only [List.mem_cons, List.not_mem_nil, or_false] at h
            exact hjk h
      · intro q hq
        rcases List.mem_cons.mp (by simpa [bump, hjk] using hq) with rfl | hq'
        · exact hnz (j, m) (List.mem_cons_self _ _)
        · exact iht.2.1 q hq'
      · by_cases hk : k ∈ (t.map Prod.fst)
        · simp [bump, hjk, iht.2.2, hk, Ne.symm hjk]
        · simp [bump, hjk, iht.2.2, hk, Ne.symm hjk]

theorem mem_iff_lookCnt : ∀ {acc : List (String × Nat)},
    (acc.map Prod.fst).Nodup → (∀ p ∈ acc, p.2 ≠ 0) →
    ∀ lbl n, ((lbl, n) ∈ acc ↔ (lookCnt acc lbl = n ∧ n ≠ 0)) := by
  intro acc
  induction acc with
  | nil =>
    intro _ _ lbl n
    simp only [List.not_mem_nil, lookCnt, false_iff, not_and, not_not]
    omega
  | cons p t ih =>
    rcases p with ⟨j, m⟩
    intro hnd hnz lbl n
    simp only [List.map_cons, List.nodup_cons] at hnd
    have iht := ih hnd.2 (fun q hq => hnz q (List.mem_cons_of_mem _ hq))
    by_cases hjl : j = lbl
    · subst hjl
      simp only [lookCnt, if_pos rfl, List.mem_cons]
      constructor
      · rintro (heq | hmem)
        · injection heq with h1 h2
          exact ⟨h2.symm, h2 ▸ hnz (j, m) (List.mem_cons_self _ _)⟩
        · exact absurd (List.mem_map_of_mem Prod.fst hmem) hnd.1
      · rintro ⟨rfl, _⟩
        exact Or.inl rfl
    · simp only [lookCnt, if_neg hjl, List.mem_cons]
      rw [← iht lbl n]
      constructor
      · rintro (heq | hmem)
        · injection heq with h1 h2
          exact absurd h1.symm hjl
        · exact hmem
      · exact Or.inr

theorem lookCnt_foldl_bump : ∀ (ks : List String) (acc : List (String × Nat)) (lbl : String),
    lookCnt (ks.foldl (fun a k => bump k a) acc) lbl = lookCnt acc lbl + ks.count lbl
  | [], acc, lbl => by simp
  | k :: ks, acc, lbl => by
    rw [List.foldl_cons, lookCnt_foldl_bump ks (bump k acc) lbl, lookCnt_bump, List.count_cons]
    by_cases h : k = lbl
    · simp only [if_pos h, beq_iff_eq, if_pos h]
      omega
    · simp only [if_neg h, beq_iff_eq, if_neg h]
      omega

theorem foldl_bump_inv : ∀ (ks : List String) {acc : List (String × Nat)},
    (acc.map Prod.fst).Nodup → (∀ p ∈ acc, p.2 ≠ 0) →
    (((ks.foldl (fun a k => bump k a) acc).map Prod.fst).Nodup ∧
      ∀ p ∈ ks.foldl (fun a k => bump k a) acc, p.2 ≠ 0)
  | [], acc, hnd, hnz => ⟨hnd, hnz⟩
  | k :: ks, acc, hnd, hnz => by
    rw [List.foldl_cons]
    have h := bump_inv (k := k) hnd hnz
    exact foldl_bump_inv ks h.1 h.2.1

theorem comptage_types_eq_fold : ∀ (fs : List Formalite) (acc : List (String × Nat)),
    fs.foldl
      (fun acc f =>
        if natureValide f then
          bump (classifier_type_acte (pyStrip f.nature_acte_redacteur)) acc
        else acc)
      acc = (keysOf fs).foldl (fun a k => bump k a) acc
  | [], _ => rfl
  | f :: fs, acc => by
    rw [List.foldl_cons]
    have hkeys : keysOf (f :: fs) =
        (if natureValide f then
          [classifier_type_acte (pyStrip f.nature_acte_redacteur)]
        else []) ++ keysOf fs := by
      unfold keysOf
      rw [List.filterMap_cons]
      by_cases h : natureValide f = true
      · simp [h]
      · simp [h]
    rw [hkeys]
    by_cases h : natureValide f = true
    · rw [if_pos h, if_pos h, List.singleton_append, List.foldl_cons]
      exact comptage_types_eq_fold fs _
    · rw [if_neg h, if_neg h, List.nil_append]
      exact comptage_types_eq_fold fs acc

/-- The counting loop agrees with the keys-and-counts reading. -/
theorem comptage_types_mem_iff (fs : List Formalite) (lbl : String) (n : Nat) :
    (lbl, n) ∈ comptage_types fs ↔ ((keysOf fs).count lbl = n ∧ n ≠ 0) := by
  have heq : comptage_types fs = (keysOf fs).foldl (fun a k => bump k a) [] := by
    unfold comptage_types
    exact comptage_types_eq_fold fs []
  have hinv := @foldl_bump_inv (keysOf fs) [] (by simp) (by simp)
  rw [heq, mem_iff_lookCnt hinv.1 hinv.2, lookCnt_foldl_bump]
  simp [lookCnt]

/-! ## Lemmas: the formality sequence numbers -/

theorem buildFormalites_numero_bounds :
    ∀ (l : List String) (i : Nat) (n : Nat),
      n ∈ (buildFormalites i l).map (fun f => f.numero_ordre) → i ≤ n ∧ n < i + l.length
  | [], _, _, h => by simp [buildFormalites] at h
  | s :: rest, i, n, h => by
    unfold buildFormalites at h
    have hlen : (s :: rest).length = rest.length + 1 := rfl
    by_cases hs : pyStrip s ≠ ""
    · rw [if_pos hs] at h
      simp only [List.map_cons, List.mem_cons] at h
      rcases h with h0 | h'
      · have hnum : (mkFormalite i (pyStrip s)).numero_ordre = i := rfl
        rw [hnum] at h0
        omega
      · have := buildFormalites_numero_bounds rest (i + 1) n h'
        omega
    · rw [if_neg hs] at h
      have := buildFormalites_numero_bounds rest (i + 1) n h
      omega

theorem buildFormalites_numero_pairwise :
    ∀ (l : List String) (i : Nat),
      ((buildFormalites i l).map (fun f => f.numero_ordre)).Pairwise (· < ·)
  | [], _ => by simp [buildFormalites]
  | s :: rest, i => by
    unfold buildFormalites
    by_cases hs : pyStrip s ≠ ""
    · rw [if_pos hs]
      simp only [List.map_cons, mkFormalite]
      refine List.pairwise_cons.mpr ⟨?_, buildFormalites_numero_pairwise rest (i + 1)⟩
      intro n hn
      have := (buildFormalites_numero_bounds rest (i + 1) n hn).1
      omega
    · rw [if_neg hs]
      exact buildFormalites_numero_pairwise rest (i + 1)

theorem buildFormalites_all_nonempty :
    ∀ (l : List String) (i : Nat), (∀ s ∈ l, pyStrip s ≠ "") →
      (buildFormalites i l).map (fun f => f.numero_ordre) = List.range' i l.length
  | [], _, _ => by simp [buildFormalites]
  | s :: rest, i, h => by
    unfold buildFormalites
    rw [if_pos (h s (List.mem_cons_self _ _))]
    simp only [List.map_cons, mkFormalite, List.length_cons, List.range'_succ]
    exact congrArg (List.cons i)
      (buildFormalites_all_nonempty rest (i + 1) fun t ht => h t (List.mem_cons_of_mem _ ht))

theorem buildFormalites_length :
    ∀ (l : List String) (i : Nat),
      (buildFormalites i l).length = (l.filter fun s => pyStrip s ≠ "").length
  | [], _ => rfl
  | s :: rest, i => by
    unfold buildFormalites
    by_cases hs : pyStrip s ≠ ""
    · rw [if_pos hs]
      simp [List.filter_cons, hs, buildFormalites_length rest (i + 1)]
    · rw [if_neg hs]
      simp only [ne_eq, Decidable.not_not] at hs
      simp [List.filter_cons, hs, buildFormalites_length rest (i + 1)]

/-! ## Lemmas: the table-cell processing -/

theorem pyInStr_nl_ne_empty {s : String} (h : pyInStr "\n" s = true) : s ≠ "" := by
  intro he
  subst he
  simp [pyInStr, containsSub, List.isEmpty] at h

theorem processLotCell_nl {s : String} (h : pyInStr "\n" s = true) :
    processLotCell s = .list (specSplitCell s) := by
  unfold processLotCell specSplitCell
  rw [if_pos (by simp [h, pyInStr_nl_ne_empty h])]

theorem splitOnFuel_not_contains {sep : List Char} (hsep : sep ≠ []) :
    ∀ (f : Nat) (cs : List Char), containsSub sep cs = false → splitOnFuel sep f cs = [cs]
  | f, [], _ => by cases f <;> rfl
  | 0, _ :: _, _ => rfl
  | f + 1, c :: rest, h => by
    unfold containsSub at h
    rw [Bool.or_eq_false_iff] at h
    unfold splitOnFuel
    rw [if_neg (by simp [hsep, h.1])]
    rw [splitOnFuel_not_contains hsep f rest h.2]

theorem pySplit_not_contains {sep s : String} (hsep : sep ≠ "")
    (h : pyInStr sep s = false) : pySplit sep s = [s] := by
  unfold pySplit
  have hd : sep.data ≠ [] := by
    intro hn
    apply hsep
    cases sep with
    | mk d => cases hn; rfl
  rw [splitOnFuel_not_contains hd s.data.length s.data h]
  rfl

theorem expandVolumePart_eq_spec (vp : String) : expandVolumePart vp = specExpandRange vp := by
  unfold expandVolumePart specExpandRange
  by_cases h : pyInStr " à " vp = true
  · rw [if_pos h]
    cases hsp : pySplit " à " vp with
    | nil => rfl
    | cons a tl =>
      cases tl with
      | nil => rfl
      | cons b tl2 =>
        cases tl2 with
        | cons c tl3 => rfl
        | nil =>
          show (match pyIntOpt a, pyIntOpt b with
                | some lo, some hi =>
                  (List.range' 0 (hi + 1 - lo).toNat).map fun k => toString (lo + (k : Int))
                | _, _ => [vp]) =
              (match pyIntOpt a, pyIntOpt b with
                | some lo, some hi => (intRangeIncl lo hi).map toString
                | _, _ => [vp])
          cases hlo : pyIntOpt a with
          | none => rfl
          | some lo =>
            cases hhi : pyIntOpt b with
            | none => rfl
            | some hi =>
              show _ = (intRangeIncl lo hi).map toString
              unfold intRangeIncl
              rw [List.map_map]
              rfl
  · rw [if_neg h]
    rw [pySplit_not_contains (by simp) (by simpa using h)]

theorem processVolumeCell_nl {s : String} (h : pyInStr "\n" s = true) :
    processVolumeCell s = .list ((specSplitCell s).flatMap specExpandRange) := by
  unfold processVolumeCell specSplitCell
  rw [if_pos (by simp [h, pyInStr_nl_ne_empty h])]
  rw [funext expandVolumePart_eq_spec]

theorem processVolumeCell_no_nl {s : String} (h : pyInStr "\n" s = false) :
    processVolumeCell s = .str s := by
  unfold processVolumeCell
  rw [if_neg (by simp [h])]

theorem processLotCell_no_nl {s : String} (h : pyInStr "\n" s = false) :
    processLotCell s = .str s := by
  unfold processLotCell
  rw [if_neg (by simp [h])]

/-! ## Lemmas: the act-type classifier -/

theorem matchPhraseAt_head_space {fin : Char → Bool} :
    ∀ {cs : List Char}, matchPhraseAt fin cs = true →
      ∃ c t, cs = c :: t ∧ isSpace c = true := by
  intro cs h
  cases cs with
  | nil => simp [matchPhraseAt] at h
  | cons c t =>
    refine ⟨c, t, rfl, ?_⟩
    unfold matchPhraseAt at h
    exact (Bool.and_eq_true_iff.mp h).1

theorem phraseSearchIdx_spec {fin : Char → Bool} :
    ∀ (cs : List Char) (k i : Nat), phraseSearchIdx fin k cs = some i →
      ∃ j, i = k + j ∧ matchPhraseAt fin (cs.drop j) = true
  | [], _, _, h => by simp [phraseSearchIdx] at h
  | c :: rest, k, i, h => by
    unfold phraseSearchIdx at h
    by_cases hm : matchPhraseAt fin (c :: rest) = true
    · rw [if_pos hm] at h
      injection h with h
      exact ⟨0, by omega, by simpa using hm⟩
    · rw [if_neg hm] at h
      obtain ⟨j, hij, hmt⟩ := phraseSearchIdx_spec rest (k + 1) i h
      exact ⟨j + 1, by omega, by simpa using hmt⟩

theorem stripTrail_isPrefix (l : List Char) : ∃ t, stripTrail l ++ t = l := by
  obtain ⟨pre, hpre⟩ := List.dropWhile_suffix (l := l.reverse) isSpace
  refine ⟨pre.reverse, ?_⟩
  unfold stripTrail
  have := congrArg List.reverse hpre
  rw [List.reverse_append, List.reverse_reverse] at this
  exact this

theorem stripTrail_ne_nil {c : Char} (h : isSpace c = false) (l : List Char) :
    stripTrail (c :: l) ≠ [] := by
  unfold stripTrail
  intro he
  rw [List.reverse_eq_nil_iff] at he
  have := List.dropWhile_eq_nil_iff.mp he c (by simp)
  rw [h] at this
  exact Bool.false_ne_true this

theorem pyStripL_cons_ne_nil {c : Char} (h : isSpace c = false) (l : List Char) :
    pyStripL (c :: l) ≠ [] := by
  unfold pyStripL stripLead
  rw [List.dropWhile_cons]
  rw [h]
  simpa using stripTrail_ne_nil h l

theorem pyStripL_head_not_space {cs : List Char} {c : Char} {t : List Char}
    (h : pyStripL cs = c :: t) : isSpace c = false := by
  obtain ⟨r, hr⟩ := stripTrail_isPrefix (stripLead cs)
  unfold pyStripL at h
  rw [h] at hr
  have hd : stripLead cs = c :: (t ++ r) := by simpa using hr.symm
  have := List.head?_dropWhile_not isSpace cs
  unfold stripLead at hd
  rw [hd] at this
  simpa using this

theorem strip_take_ne_nil {c : Char} {t : List Char} (hc : isSpace c = false)
    {i : Nat} (hi : 1 ≤ i) : pyStripL ((c :: t).take i) ≠ [] := by
  rcases i with _ | i
  · omega
  · rw [List.take_succ_cons]
    exact pyStripL_cons_ne_nil hc _

/-- When a phrase search succeeds on the stripped text, the text before the
match never strips to nothing, so the classifier's empty-prefix fallback is
dead. -/
theorem search_prefix_ne_nil {fin : Char → Bool} {cs : List Char} {i : Nat}
    (h : phraseSearchIdx fin 0 (pyStripL cs) = some i) :
    pyStripL ((pyStripL cs).take i) ≠ [] := by
  obtain ⟨j, hij, hmt⟩ := phraseSearchIdx_spec (pyStripL cs) 0 i h
  rcases hs : pyStripL cs with _ | ⟨c0, t0⟩
  · rw [hs] at h
    simp [phraseSearchIdx] at h
  · have hc0 : isSpace c0 = false := pyStripL_head_not_space hs
    have hj1 : 1 ≤ i := by
      by_contra hlt
      have hj0 : j = 0 := by omega
      rw [hs, hj0, List.drop_zero] at hmt
      obtain ⟨c, t, hct, hsp⟩ := matchPhraseAt_head_space hmt
      injection hct with h1 h2
      rw [← h1, hc0] at hsp
      exact Bool.false_ne_true hsp
    exact strip_take_ne_nil hc0 hj1

/-- The source's four-pattern loop collapses to the two distinct variants:
é-accented first (patterns 1 and 3 coincide under `re.IGNORECASE`, as do 2
and 4), and its empty-prefix fallback never fires. -/
theorem classifier_eq_amended (s : String) :
    classifier_type_acte s = classifySpecAmended s := by
  unfold classifier_type_acte classifySpecAmended patternsFormalite
  cases h1 : phraseSearchIdx (fun c => lowerFr c = 'é') 0 (pyStripL s.data) with
  | some i =>
    have hne := search_prefix_ne_nil h1
    simp [classifierLoop, h1, hne]
  | none =>
    cases h2 : phraseSearchIdx (fun c => lowerFr c = 'e') 0 (pyStripL s.data) with
    | some i =>
      have hne := search_prefix_ne_nil h2
      simp [classifierLoop, h1, h2, hne]
    | none => simp [classifierLoop, h1, h2]

/-! ## The claims -/

/-- C1: during ownership reconstruction every lot identifier (including the
whole-property sentinel) is assigned to at most one owner (the assignment
map's keys are duplicate-free); the binding that survives for a lot is the
one contributed by the first mutation, in the most-recent-first processed
order, whose processing assigns that lot; and on the reference example with
lots 9 and 17, the more recent mutation wins lot 9 for owner X while the
older one wins lot 17 for owner Y. -/
theorem c1_lot_assignment_first_wins :
    (∀ (lots_ref : List String) (cr dr : String) (muts : List Mutation),
      ((loopMutations lots_ref cr dr (sortD mutLe muts) []).map Prod.fst).Nodup) ∧
    (∀ (lots_ref : List String) (cr dr : String) (muts : List Mutation) (l : String),
      lookupLot (loopMutations lots_ref cr dr (sortD mutLe muts) []) l =
        (processedPrefix lots_ref cr dr (sortD mutLe muts) []).findSome? fun m =>
          lookupLot (processMutation lots_ref cr dr [] m) l) ∧
    (reconstituer_propriete [c1MutB, c1MutA] [c1RefImmeuble]).map
        (fun r => (r.proprietaire.designation, r.lots)) =
      [("X OWNER", ["9"]), ("Y OWNER", ["17"])] := by
  refine ⟨?_, ?_, by decide⟩
  · intro lots_ref cr dr muts
    exact keys_loopMutations_nodup lots_ref cr dr _ (by simp)
  · intro lots_ref cr dr muts l
    exact lookupLot_loopMutations lots_ref cr dr (sortD mutLe muts) [] l

/-- C2 counterexample: with one sentinel-dated mutation and one mutation
dated 12/03/2010, the descending sort places the unparseable sentinel date
FIRST, not last, because the sentinel string is its own key and compares
above every ISO date key. -/
theorem c2_counterexample :
    (sortD mutLe [c2MutNF, c2MutD]).map (fun m => m.date_depot) =
      ["Non trouvé", "12/03/2010"] ∧
    estDateJJMMAAAA ("12/03/2010") = true ∧
    (sortD mutLe [c2MutNF, c2MutD]).map (fun m => m.date_depot) ≠
      ["12/03/2010", "Non trouvé"] :=
  ⟨by decide, by decide, by decide⟩

/-- C2 amended: before reconstruction iterates, the mutation list is stably
sorted by the DD/MM/YYYY-to-ISO key, descending; a mutation whose
`date_depot` is the not-found sentinel (which contains a slash-less value
used verbatim as its key) sorts BEFORE every mutation with a parseable
DD/MM/YYYY date, not after. -/
theorem c2_amended_sentinel_sorts_first (ms : List Mutation)
    (i j : Fin (sortD mutLe ms).length)
    (hdi : ((sortD mutLe ms).get i).date_depot = "Non trouvé")
    (hdj : estDateJJMMAAAA (((sortD mutLe ms).get j).date_depot) = true) :
    i < j := by
  have hpw := sortD_pairwise mutLe_total mutLe_trans ms
  rcases lt_trichotomy i j with h | h | h
  · exact h
  · exfalso
    rw [← h, hdi] at hdj
    exact absurd hdj (by decide)
  · exfalso
    have hle := List.pairwise_iff_get.mp hpw j i h
    rw [mutLe_parseable_sentinel hdi hdj] at hle
    exact Bool.false_ne_true hle

/-- C2 witness: the theorem instantiated on the concrete two-mutation list. -/
theorem c2_amended_sentinel_sorts_first_witness :
    ((sortD mutLe [c2MutD, c2MutNF]).get ⟨0, by decide⟩).date_depot = "Non trouvé" ∧
    estDateJJMMAAAA (((sortD mutLe [c2MutD, c2MutNF]).get ⟨1, by decide⟩).date_depot) = true ∧
    (⟨0, by decide⟩ : Fin (sortD mutLe [c2MutD, c2MutNF]).length) < ⟨1, by decide⟩ :=
  ⟨by decide, by decide,
    c2_amended_sentinel_sorts_first [c2MutD, c2MutNF] ⟨0, by decide⟩ ⟨1, by decide⟩
      (by decide) (by decide)⟩

/-- C3 counterexample: a document with two anchors whose first segment is
empty yields a single formality numbered 2 — the numbers are not `1..N`
and the empty segment is dropped. -/
theorem c3_counterexample :
    countAnchors ("Date de dépôt:Date de dépôt:abc") = 2 ∧
    (extract_formalites ("Date de dépôt:Date de dépôt:abc")).map
      (fun f => f.numero_ordre) = [2] ∧
    ([2] : List Nat) ≠ List.range' 1 2 :=
  ⟨by decide, by decide, by decide⟩

/-- C3 amended: `numero_ordre` values are strictly increasing and lie in
`1..N` (N the anchor count); each post-anchor segment that is non-empty
after stripping yields exactly one formality (so none is dropped for
missing fields); and when no segment strips to empty the numbers are
exactly `1..N`. -/
theorem c3_amended_numero_ordre (full_text : String) :
    ((extract_formalites full_text).map (fun f => f.numero_ordre)).Pairwise (· < ·) ∧
    (∀ n ∈ (extract_formalites full_text).map (fun f => f.numero_ordre),
      1 ≤ n ∧ n ≤ countAnchors full_text) ∧
    (extract_formalites full_text).length =
      (((rxSplit depotPattern full_text).drop 1).filter fun s => pyStrip s ≠ "").length ∧
    ((∀ s ∈ (rxSplit depotPattern full_text).drop 1, pyStrip s ≠ "") →
      (extract_formalites full_text).map (fun f => f.numero_ordre) =
        List.range' 1 (countAnchors full_text)) := by
  unfold extract_formalites countAnchors
  cases hsp : rxSplit depotPattern full_text with
  | nil =>
    refine ⟨by simp, by simp, by simp, fun _ => by simp⟩
  | cons hd tail =>
    refine ⟨buildFormalites_numero_pairwise tail 1, ?_, ?_, ?_⟩
    · intro n hn
      have := buildFormalites_numero_bounds tail 1 n hn
      simp only [List.length_cons]
      omega
    · simpa using buildFormalites_length tail 1
    · intro hne
      have := buildFormalites_all_nonempty tail 1 (by simpa using hne)
      simpa using this

/-- C3 witness: a two-anchor document with non-empty segments realizes the
`1..N` conclusion. -/
theorem c3_amended_numero_ordre_witness :
    (∀ s ∈ (rxSplit depotPattern ("Date de dépôt: a Date de dépôt: b")).drop 1,
      pyStrip s ≠ "") ∧
    (extract_formalites ("Date de dépôt: a Date de dépôt: b")).map
        (fun f => f.numero_ordre) =
      List.range' 1 (countAnchors ("Date de dépôt: a Date de dépôt: b")) :=
  ⟨by decide,
    (c3_amended_numero_ordre ("Date de dépôt: a Date de dépôt: b")).2.2.2 (by decide)⟩

/-- C5: reconstruction halts as soon as the assigned-lot set equals the
reference lot set (or the whole-property sentinel is assigned when the
reference set is empty): mutations later in the processed order never
change the result, and the concrete three-mutation run equals the
two-mutation run that already covers both reference lots. -/
theorem c5_reconstruction_halts :
    (∀ (lots_ref : List String) (cr dr : String) (ms tail : List Mutation)
        (acc : List (String × PropInfo)), ms ≠ [] →
      stopCond lots_ref (loopMutations lots_ref cr dr ms acc) = true →
      loopMutations lots_ref cr dr (ms ++ tail) acc =
        loopMutations lots_ref cr dr ms acc) ∧
    reconstituer_propriete [c1MutB, c1MutA, c5MutC] [c1RefImmeuble] =
      reconstituer_propriete [c1MutB, c1MutA] [c1RefImmeuble] :=
  ⟨fun lots_ref cr dr ms tail acc h1 h2 =>
    loopMutations_append_of_stop lots_ref cr dr ms tail acc h1 h2, by decide⟩

/-- C5 witness: the early-exit equation instantiated on the concrete
reference example, with an extra trailing mutation. -/
theorem c5_reconstruction_halts_witness :
    ([c1MutA, c1MutB] : List Mutation) ≠ [] ∧
    stopCond ["9", "17"]
      (loopMutations ["9", "17"] ("PARIS") ("CJ 42") [c1MutA, c1MutB] []) = true ∧
    loopMutations ["9", "17"] ("PARIS") ("CJ 42") ([c1MutA, c1MutB] ++ [c5MutC]) [] =
      loopMutations ["9", "17"] ("PARIS") ("CJ 42") [c1MutA, c1MutB] [] :=
  ⟨by decide, by decide,
    c5_reconstruction_halts.1 ["9", "17"] ("PARIS") ("CJ 42") [c1MutA, c1MutB] [c5MutC] []
      (by decide) (by decide)⟩

/-- C6 counterexample: on a text containing the unaccented variant before
the é-accented one, the classifier cuts at the é-occurrence found by its
first pattern, not at the first occurrence of any variant as the claim
states. -/
theorem c6_counterexample :
    classifier_type_acte ("A de la formalite B de la formalité C") =
      "A de la formalite B" ∧
    classifySpecFirstVariant ("A de la formalite B de la formalité C") = "A" ∧
    ("A de la formalite B" : String) ≠ "A" :=
  ⟨by decide, by decide, by decide⟩

/-- C6 amended: classify returns everything preceding the first occurrence
of the é-accented variant when one occurs anywhere, otherwise everything
preceding the first occurrence of the unaccented variant, trimmed; with no
variant the trimmed input is returned; in particular
classify("VENTE de la formalité n°3") = "VENTE" and classify("VENTE") =
"VENTE". -/
theorem c6_amended_classify :
    (∀ s : String, classifier_type_acte s = classifySpecAmended s) ∧
    classifier_type_acte ("VENTE de la formalité n°3") = "VENTE" ∧
    classifier_type_acte ("VENTE") = "VENTE" :=
  ⟨classifier_eq_amended, by decide, by decide⟩

theorem estRadiee_congr (radiations : List Formalite) {g f : Formalite}
    (h : g.date_depot = f.date_depot) :
    estRadiee radiations g = estRadiee radiations f := by
  unfold estRadiee
  rw [h]

theorem estRadiee_iff_exists (formalites : List Formalite) (f : Formalite) :
    estRadiee (formalites.filter estRadiationF) f = true ↔
      ∃ c ∈ formalites,
        (pyInStr f.date_depot c.nature_acte_redacteur &&
         pyInStr ("RADIATION") (pyUpper c.nature_acte_redacteur) &&
         pyInStr ("TOTALE") (pyUpper c.nature_acte_redacteur)) = true := by
  unfold estRadiee
  rw [List.any_eq_true]
  constructor
  · rintro ⟨r, hr, hq⟩
    exact ⟨r, (List.mem_filter.mp hr).1, hq⟩
  · rintro ⟨c, hc, hq⟩
    refine ⟨c, List.mem_filter.mpr ⟨hc, ?_⟩, hq⟩
    unfold estRadiationF
    simp only [Bool.and_eq_true] at hq
    rw [hq.1.2, hq.2]
    rfl

/-- C4: a formality classified as a mortgage appears in
`hypotheques_actives` (always with status ACTIVE) exactly when no
formality of the document carries its literal `date_depot` in its act text
together with both the radiation and totality markers; in particular the
12/03/2010 mortgage is excluded by the cancellation whose act text is
"RADIATION TOTALE DE L'HYPOTHEQUE DU 12/03/2010". -/
theorem c4_active_iff_no_matching_cancellation (formalites : List Formalite)
    (f : Formalite) (hf : f ∈ formalites) (hm : estHypothequeF f = true) :
    ((mkHypothequeActive f ∈ analyser_hypotheques_actives formalites) ↔
      ¬ ∃ c ∈ formalites,
        (pyInStr f.date_depot c.nature_acte_redacteur &&
         pyInStr ("RADIATION") (pyUpper c.nature_acte_redacteur) &&
         pyInStr ("TOTALE") (pyUpper c.nature_acte_redacteur)) = true) ∧
    (∀ r ∈ analyser_hypotheques_actives formalites, r.statut = "ACTIVE") ∧
    analyser_hypotheques_actives [c4Hyp, c4Rad] = [] := by
  refine ⟨?_, ?_, by decide⟩
  · unfold analyser_hypotheques_actives
    rw [← estRadiee_iff_exists formalites f]
    constructor
    · intro hmem hrad
      rcases List.mem_map.mp hmem with ⟨g, hg, hgf⟩
      have hdate : g.date_depot = f.date_depot :=
        congrArg HypothequeActive.date_depot hgf
      have hgrad := (List.mem_filter.mp hg).2
      rw [estRadiee_congr _ hdate, hrad] at hgrad
      exact Bool.false_ne_true hgrad
    · intro hnot
      refine List.mem_map.mpr ⟨f, List.mem_filter.mpr ⟨List.mem_filter.mpr ⟨hf, hm⟩, ?_⟩, rfl⟩
      rcases hr : estRadiee (formalites.filter estRadiationF) f with _ | _
      · rfl
      · exact absurd hr hnot
  · intro r hr
    unfold analyser_hypotheques_actives at hr
    rcases List.mem_map.mp hr with ⟨g, _, hgr⟩
    rw [← hgr]
    rfl

/-- C4 witness: an unradiated mortgage is reported active. -/
theorem c4_active_iff_no_matching_cancellation_witness :
    c4Hyp ∈ [c4Hyp] ∧ estHypothequeF c4Hyp = true ∧
    mkHypothequeActive c4Hyp ∈ analyser_hypotheques_actives [c4Hyp] :=
  ⟨by decide, by decide,
    ((c4_active_iff_no_matching_cancellation [c4Hyp] c4Hyp (by decide) (by decide)).1).mpr
      (by decide)⟩

/-- C7: the act-type aggregation counts, per canonical label, the
formalities whose stripped act nature is neither empty nor the not-found
sentinel; its iteration order is descending by count; a tie between two
labels keeps their first-seen order from the counting pass. -/
theorem c7_act_type_count (formalites : List Formalite) :
    (∀ lbl n, (lbl, n) ∈ comptage_trie formalites ↔
      ((keysOf formalites).count lbl = n ∧ n ≠ 0)) ∧
    (comptage_trie formalites).Pairwise (fun x y => y.2 ≤ x.2) ∧
    (∀ x y : String × Nat, x.2 = y.2 →
      [x, y].Sublist (comptage_types formalites) →
      [x, y].Sublist (comptage_trie formalites)) := by
  refine ⟨?_, ?_, ?_⟩
  · intro lbl n
    rw [← comptage_types_mem_iff]
    exact (sortD_perm (fun x y => decide (y.2 ≤ x.2)) (comptage_types formalites)).mem_iff
  · have hpw := @sortD_pairwise (String × Nat) (fun x y => decide (y.2 ≤ x.2))
      (fun a b => by
        rcases Nat.le_total b.2 a.2 with h | h
        · exact Or.inl (decide_eq_true h)
        · exact Or.inr (decide_eq_true h))
      (fun a b c h1 h2 =>
        decide_eq_true (Nat.le_trans (of_decide_eq_true h2) (of_decide_eq_true h1)))
      (comptage_types formalites)
    exact hpw.imp fun h => of_decide_eq_true h
  · intro x y hxy hsub
    exact sortD_stable_pair (by simp [hxy]) hsub

/-- C7 witness: a concrete tie keeps first-seen order. -/
theorem c7_act_type_count_witness :
    (("VENTE", 1) : String × Nat).2 = (("DONATION", 1) : String × Nat).2 ∧
    [(("VENTE" : String), 1), (("DONATION" : String), 1)].Sublist
      (comptage_types [c7F1, c7F2]) ∧
    [(("VENTE" : String), 1), (("DONATION" : String), 1)].Sublist
      (comptage_trie [c7F1, c7F2]) :=
  ⟨rfl, by decide,
    (c7_act_type_count [c7F1, c7F2]).2.2 ("VENTE", 1) ("DONATION", 1) rfl (by decide)⟩

/-- C8 counterexample: a volume cell holding the range "71 à 72" without an
embedded line break is kept as a scalar string by the extractor — the range
is not expanded as the claim states. -/
theorem c8_counterexample :
    extract_tableau_derniere_page 2 [c8Grid] =
      [{ code := "1", commune := "PARIS", designation_cadastrale := "CJ 42",
         volume := .str ("71 à 72"), lot := .str ("9"), page := 2 }] ∧
    pyInStr (" à ") ("71 à 72") = true ∧
    CellVal.str ("71 à 72") ≠ CellVal.list ["71", "72"] :=
  ⟨by decide, by decide, by decide⟩

/-- C8 amended: only the lot and volume cells are list-processed, and only
when they contain an embedded line break: such a lot cell becomes the list
of its non-empty stripped lines, such a volume cell additionally expands
every "A à B" line with integer bounds to the enumerated range; cells
without line breaks stay scalar. -/
theorem c8_amended_cells (page : Nat) (hd : List (Option String))
    (c0 c1v c2 c3 c4 : String)
    (hhdr : rowIsHeader hd = true) (hhd : hd ≠ [])
    (h0 : c0 ≠ "") (h0s : pyStrip c0 ≠ "")
    (h3 : pyInStr "\n" (pyStrip c3) = true) (h4 : pyInStr "\n" (pyStrip c4) = true)
    (h3e : c3 ≠ "") (h4e : c4 ≠ "") :
    extract_tableau_derniere_page page
        [[hd, [some c0, some c1v, some c2, some c3, some c4]]] =
      [{ code := pyStrip c0
         commune := if c1v ≠ "" then pyStrip c1v else ""
         designation_cadastrale := if c2 ≠ "" then pyStrip c2 else ""
         volume := .list ((specSplitCell (pyStrip c3)).flatMap specExpandRange)
         lot := .list (specSplitCell (pyStrip c4))
         page := page }] := by
  have hrow : immeubleOfRow page [some c0, some c1v, some c2, some c3, some c4] =
      some { code := pyStrip c0
             commune := if c1v ≠ "" then pyStrip c1v else ""
             designation_cadastrale := if c2 ≠ "" then pyStrip c2 else ""
             volume := .list ((specSplitCell (pyStrip c3)).flatMap specExpandRange)
             lot := .list (specSplitCell (pyStrip c4))
             page := page } := by
    unfold immeubleOfRow
    rw [if_neg (by simp [cellTruthy, h0])]
    have hc0 : cellStrAt [some c0, some c1v, some c2, some c3, some c4] 0 = pyStrip c0 := by
      simp [cellStrAt, h0]
    have hc3 : cellStrAt [some c0, some c1v, some c2, some c3, some c4] 3 = pyStrip c3 := by
      simp [cellStrAt, h3e]
    have hc4 : cellStrAt [some c0, some c1v, some c2, some c3, some c4] 4 = pyStrip c4 := by
      simp [cellStrAt, h4e]
    rw [hc0, hc3, hc4]
    rw [if_pos (by simp [h0s])]
    rw [processVolumeCell_nl h3, processLotCell_nl h4]
    rfl
  unfold extract_tableau_derniere_page
  rw [List.foldl_cons, List.foldl_nil, List.nil_append]
  have htail : processTable page [[some c0, some c1v, some c2, some c3, some c4]] = [] := by
    by_cases hrh : rowIsHeader [some c0, some c1v, some c2, some c3, some c4] = true <;>
      simp [processTable, hrh]
  show (if hd = [] then []
        else if rowIsHeader hd then
          [[some c0, some c1v, some c2, some c3, some c4]].filterMap (immeubleOfRow page)
        else []) ++ processTable page [[some c0, some c1v, some c2, some c3, some c4]] = _
  rw [if_neg hhd, if_pos hhdr, htail, List.append_nil, List.filterMap_cons, hrow]
  rfl

/-- C8 witness: the amended cell-processing behaviour on a concrete grid
with line-broken lot and volume cells. -/
theorem c8_amended_cells_witness :
    rowIsHeader [some ("CODE")] = true ∧
    pyInStr "\n" (pyStrip ("57\n71 à 72")) = true ∧
    pyInStr "\n" (pyStrip ("9\n17")) = true ∧
    extract_tableau_derniere_page 12
        [[[some ("CODE")], [some "1", some "PARIS", some "CJ 42", some ("57\n71 à 72"),
           some ("9\n17")]]] =
      [{ code := pyStrip ("1")
         commune := if ("PARIS" : String) ≠ "" then pyStrip ("PARIS") else ""
         designation_cadastrale := if ("CJ 42" : String) ≠ "" then pyStrip ("CJ 42") else ""
         volume := .list ((specSplitCell (pyStrip ("57\n71 à 72"))).flatMap specExpandRange)
         lot := .list (specSplitCell (pyStrip ("9\n17")))
         page := 12 }] :=
  ⟨by decide, by decide, by decide,
    c8_amended_cells 12 [some ("CODE")] "1" "PARIS" "CJ 42" ("57\n71 à 72") ("9\n17")
      (by decide) (by decide) (by decide) (by decide) (by decide) (by decide)
      (by decide) (by decide)⟩

/-- C9: the embedded pipeline is a pure function of the document text, the
page count, the final-page table grids and the source-file stem: two runs
on equal inputs produce equal output structures (the only embedded
timestamp is the constant `date_extraction` string). -/
theorem c9_pipeline_deterministic (t₁ t₂ : String) (n₁ n₂ : Nat)
    (g₁ g₂ : List (List (List (Option String)))) (s₁ s₂ : String)
    (ht : t₁ = t₂) (hn : n₁ = n₂) (hg : g₁ = g₂) (hs : s₁ = s₂) :
    extraction_complete_ehf t₁ n₁ g₁ s₁ = extraction_complete_ehf t₂ n₂ g₂ s₂ := by
  subst ht; subst hn; subst hg; subst hs; rfl

/-- C9 witness: two identical concrete runs coincide. -/
theorem c9_pipeline_deterministic_witness :
    ("doc" : String) = "doc" ∧ (1 : Nat) = 1 ∧
    extraction_complete_ehf "" 1 [] "doc" = extraction_complete_ehf "" 1 [] "doc" :=
  ⟨rfl, rfl, c9_pipeline_deterministic "" "" 1 1 [] [] "doc" "doc" rfl rfl rfl rfl⟩

/-- C10: a formality whose act text carries neither the mortgage nor the
radiation marker but whose raw content satisfies the implicit mortgage
criterion is both reported as an ACTIVE mortgage (no cancellation matches
it) and analyzed as a mutation (its party extraction is non-empty), hence
appears simultaneously in `hypotheques_actives` and `mutations`. -/
theorem c10_implicit_mortgage_dual_analysis :
    pyInStr ("HYPOTHEQUE") (pyUpper c10Formalite.nature_acte_redacteur) = false ∧
    pyInStr ("RADIATION") (pyUpper c10Formalite.nature_acte_redacteur) = false ∧
    estHypothequeImplicite c10Formalite = true ∧
    (analyser_hypotheques_actives [c10Formalite]).map
      (fun h => (h.numero_ordre, h.statut)) = [(7, "ACTIVE")] ∧
    (analyser_mutations [c10Formalite]).map (fun m => m.numero_ordre) = [7] ∧
    (analyser_mutations [c10Formalite]).map
      (fun m => m.mutations.disposant_donateur) =
      [[{ numero := "1", designation := "AB", date_naissance := "01/01/2000" }]] :=
  ⟨by decide, by decide, by decide, by decide, by decide, by decide⟩

end EHF
